import Mathlib

/-
Shallow embedding of the Stock Lot Ledger of backend_core/app/services/inventory_service.py
(together with the pieces of backend_core/app/models_v2.py it relies on: the enums,
the StockLot table CHECK constraints, and the validates hook on current_weight_kg).

Weights: the service quantizes every weight to Decimal with 3 fractional digits
(kilograms).  We embed such a quantized decimal as an Int counting thousandths of a
kilogram; Decimal arithmetic on that grid (addition, subtraction, comparison,
multiplication by 1000) is exact, so Int arithmetic models it faithfully.
Quantities (Numeric columns used only as opaque payload here) are embedded as Int
in the same way.  Timestamps (received_date, movement_date) are embedded as an
abstract Int supplied by the caller, and the current year used by
get_next_sequence is likewise an explicit argument, since the embedding has no
real clock.
-/

namespace KBSteel

/-- Weight units, from models_v2.WeightUnit. -/
inductive WeightUnit
  | kg
  | ton
  | mt
  | piece
  | meter
  | feet
deriving DecidableEq

/-- Movement types, from models_v2.MovementType. -/
inductive MovementType
  | inward_purchase
  | inward_return
  | inward_transfer
  | outward_sale
  | outward_transfer
  | outward_scrap
  | consumption
  | adjustment_plus
  | adjustment_minus
  | reweigh
  | split_mv
  | merge
deriving DecidableEq

/-- QA statuses, from models_v2.QAStatus. -/
inductive QAStatus
  | pending
  | approved
  | rejected
  | on_hold
  | conditional
deriving DecidableEq

/-- Structured content of the error messages raised as InsufficientStockError:
the FIFO picker reports the shortfall, consume reports available and requested,
split reports total requested against available. -/
inductive ShortInfo
  | shortBy (kg : Int)
  | availableRequested (available requested : Int)
  | splitExceeds (total available : Int)
deriving DecidableEq

/-- The error taxonomy of the service layer.  notFound embeds the HTTPException 404;
invalidOperation embeds InvalidOperationError; insufficientStock embeds
InsufficientStockError; valueError embeds the ValueError raised by the
models_v2.StockLot validates hook on a negative current_weight_kg assignment;
integrityError embeds the database IntegrityError raised when a StockLot CHECK
constraint fails at flush or commit; invalidInput embeds the decimal parse error of
normalize_weight.  Any raised error aborts the enclosing transaction, so an
erroring operation leaves the database unchanged. -/
inductive LedgerError
  | notFound
  | invalidOperation
  | insufficientStock (info : ShortInfo)
  | valueError
  | integrityError
  | invalidInput
deriving DecidableEq

/-- A stock lot row, from models_v2.StockLot (the columns the ledger touches). -/
structure StockLot where
  id : Nat
  lot_number : String
  material_id : Nat
  heat_number : Option String := none
  batch_number : Option String := none
  gross_weight_kg : Int
  tare_weight_kg : Int := 0
  net_weight_kg : Int
  current_weight_kg : Int
  initial_quantity : Int := 1
  current_quantity : Int := 1
  unit : WeightUnit := WeightUnit.kg
  vendor_id : Option Nat := none
  grn_id : Option Nat := none
  purchase_rate : Option Int := none
  qa_status : QAStatus
  location_id : Option Nat := none
  received_date : Int
  is_active : Bool := true
  is_blocked : Bool := false
deriving DecidableEq

/-- A stock movement row, from models_v2.StockMovement (the columns the ledger writes). -/
structure StockMovement where
  movement_number : String
  stock_lot_id : Nat
  movement_type : MovementType
  weight_change_kg : Int
  weight_before_kg : Int
  weight_after_kg : Int
  quantity_change : Option Int := none
  reference_type : Option String := none
  reference_id : Option Nat := none
  reference_number : Option String := none
  from_location_id : Option Nat := none
  to_location_id : Option Nat := none
  reason : Option String := none
  created_by : Nat
  approved_by : Option Nat := none
deriving DecidableEq

/-- A number sequence row, from models_v2.NumberSequence.  The source column is
named prefix; that word is reserved here so the field is prefixStr. -/
structure NumberSequence where
  sequence_name : String
  prefixStr : String := ""
  current_number : Nat := 0
  year : Option Int := none
  padding : Nat := 6
deriving DecidableEq

/-- The slice of the database the ledger operates on: the stock_lots table, the
append-only stock_movements table and the number_sequences table. -/
structure Db where
  lots : List StockLot := []
  movements : List StockMovement := []
  seqs : List NumberSequence := []
deriving DecidableEq

/-- Python truthiness of an Optional int: None and 0 are falsy. -/
def truthy : Option Nat → Bool
  | none => false
  | some n => decide (n ≠ 0)

/-- db.query(StockLot).filter(StockLot.id == lot_id).first() -/
def findLot (lots : List StockLot) (lot_id : Nat) : Option StockLot :=
  lots.find? (fun l => l.id == lot_id)

/-- Writing the updated lot row back (the ORM mutates the row in place;
rows are keyed by id). -/
def updateLot (lots : List StockLot) (l2 : StockLot) : List StockLot :=
  lots.map (fun l => if l.id == l2.id then l2 else l)

/-- The primary key the database would assign to the next inserted lot row. -/
def freshLotId (lots : List StockLot) : Nat :=
  (lots.map (fun l => l.id)).foldr Nat.max 0 + 1

/-- The StockLot table CHECK constraints (models_v2.StockLot.__table_args__):
current_weight_kg >= 0, current_weight_kg <= net_weight_kg,
net_weight_kg <= gross_weight_kg.  The database evaluates them whenever the row
is inserted or updated; a violation aborts the transaction. -/
def checkLotConstraints (l : StockLot) : Bool :=
  decide (0 ≤ l.current_weight_kg) && decide (l.current_weight_kg ≤ l.net_weight_kg) &&
    decide (l.net_weight_kg ≤ l.gross_weight_kg)

/-- str.zfill: left-pad a digit string with zeros to the given width. -/
def zfill (s : String) (w : Nat) : String :=
  if s.length < w then String.mk (List.replicate (w - s.length) '0') ++ s else s

/-- db.query(NumberSequence).filter(NumberSequence.sequence_name == name).first() -/
def findSeq (seqs : List NumberSequence) (name : String) : Option NumberSequence :=
  seqs.find? (fun s => s.sequence_name == name)

/-- Persist the (possibly freshly created) sequence row. -/
def storeSeq (seqs : List NumberSequence) (s2 : NumberSequence) : List NumberSequence :=
  if (seqs.find? (fun s => s.sequence_name == s2.sequence_name)).isSome then
    seqs.map (fun s => if s.sequence_name == s2.sequence_name then s2 else s)
  else
    seqs ++ [s2]

/-- inventory_service.get_next_sequence.  currentYear stands for
datetime.utcnow().year.  The row is locked for update, created when absent
(counter seeded to 0, padding 6), reset to 0 with the year updated when year_wise
and the stored year differs, incremented, persisted, and the formatted string is
returned.  The Python expression seq.prefix or prefix falls back to the argument
when the stored column is empty. -/
def get_next_sequence (db : Db) (sequence_name : String) (prefixArg : String)
    (year_wise : Bool) (currentYear : Int) : String × Db :=
  let cy : Option Int := if year_wise then some currentYear else none
  let seq0 : NumberSequence :=
    match findSeq db.seqs sequence_name with
    | some s => s
    | none =>
        { sequence_name := sequence_name, prefixStr := prefixArg, current_number := 0,
          year := cy, padding := 6 }
  let seq1 : NumberSequence :=
    if year_wise ∧ seq0.year ≠ cy then { seq0 with current_number := 0, year := cy }
    else seq0
  let seq2 : NumberSequence := { seq1 with current_number := seq1.current_number + 1 }
  let number_str : String := zfill (toString seq2.current_number) seq2.padding
  let px : String := if seq2.prefixStr = "" then prefixArg else seq2.prefixStr
  let out : String :=
    if year_wise then px ++ "/" ++ toString currentYear ++ "/" ++ number_str
    else px ++ "/" ++ number_str
  (out, { db with seqs := storeSeq db.seqs seq2 })

/-- A raw weight value as received by normalize_weight: either something that
Decimal(str(value)) parses to a (possibly negative) number — embedded already on
the 0.001 grid, where quantize is the identity — or something it fails to parse. -/
inductive RawValue
  | num (milli : Int)
  | notNum (s : String)
deriving DecidableEq

/-- inventory_service.tons_to_kg: multiply by 1000; exact on the 0.001 grid. -/
def tons_to_kg (tons : Int) : Int :=
  tons * 1000

/-- inventory_service.normalize_weight: parse and quantize the value (a parse
failure raises the decimal invalid-input error), convert tons to kilograms,
pass kilograms and piece or length units through unchanged.  There is no sign
check anywhere in the function. -/
def normalize_weight (value : RawValue) (unit : WeightUnit) : Except LedgerError Int :=
  match value with
  | RawValue.notNum _ => Except.error LedgerError.invalidInput
  | RawValue.num v =>
      if unit = WeightUnit.ton ∨ unit = WeightUnit.mt then Except.ok (tons_to_kg v)
      else Except.ok v

/-- A GRN line item, from models_v2.GRNLineItem, together with the two fields the
service reaches through the grn relationship (grn_line.grn.vendor_id and
grn_line.grn.grn_number). -/
structure GRNLineItem where
  grn_id : Nat
  material_id : Nat
  heat_number : Option String := none
  batch_number : Option String := none
  received_qty : Int := 1
  weight_kg : Int
  unit : WeightUnit := WeightUnit.kg
  rate : Option Int := none
  qa_status : QAStatus
  grn_vendor_id : Option Nat := none
  grn_number : String := ""
deriving DecidableEq

/-- StockLotService.create_lot_from_grn.  Allocates a lot number, builds the lot
(gross and net and current weight all from the line weight, tare 0), inserts and
flushes it (the validates hook and the CHECK constraints fire there), then writes
the inward-purchase movement.  currentYear and now stand for the clock. -/
def create_lot_from_grn (db : Db) (grn_line : GRNLineItem) (location_id : Option Nat)
    (user_id : Nat) (currentYear : Int) (now : Int) :
    Except LedgerError (StockLot × Db) :=
  let r1 := get_next_sequence db "lot" "LOT" true currentYear
  let lot_number := r1.1
  let db1 := r1.2
  if grn_line.weight_kg < 0 then Except.error LedgerError.valueError
  else
    let lot : StockLot :=
      { id := freshLotId db1.lots
        lot_number := lot_number
        material_id := grn_line.material_id
        heat_number := grn_line.heat_number
        batch_number := grn_line.batch_number
        gross_weight_kg := grn_line.weight_kg
        tare_weight_kg := 0
        net_weight_kg := grn_line.weight_kg
        current_weight_kg := grn_line.weight_kg
        initial_quantity := grn_line.received_qty
        current_quantity := grn_line.received_qty
        unit := grn_line.unit
        vendor_id := grn_line.grn_vendor_id
        grn_id := some grn_line.grn_id
        purchase_rate := grn_line.rate
        qa_status := grn_line.qa_status
        location_id := location_id
        received_date := now
        is_active := true
        is_blocked := false }
    if checkLotConstraints lot then
      let r2 := get_next_sequence db1 "movement" "MOV" true currentYear
      let movement : StockMovement :=
        { movement_number := r2.1
          stock_lot_id := lot.id
          movement_type := MovementType.inward_purchase
          weight_change_kg := lot.net_weight_kg
          weight_before_kg := 0
          weight_after_kg := lot.net_weight_kg
          quantity_change := some lot.initial_quantity
          reference_type := some "grn"
          reference_id := some grn_line.grn_id
          reference_number := some grn_line.grn_number
          to_location_id := location_id
          created_by := user_id }
      Except.ok (lot, { r2.2 with lots := r2.2.lots ++ [lot],
                                  movements := r2.2.movements ++ [movement] })
    else Except.error LedgerError.integrityError

/-- StockLotService.consume_from_lot.  Locks the lot, validates active, blocked
and QA state, checks available stock, writes the consumption movement, updates
the lot weight (via the validates hook) and pins a fully consumed lot to
inactive with weight exactly 0.  The weight argument is already on the 0.001
grid, where the quantize call of the source is the identity.  The optional
MaterialConsumptionV2 link row (production_item_id) is not modelled: no claim
refers to it and it touches no ledger state. -/
def consume_from_lot (db : Db) (lot_id : Nat) (weight_kg : Int) (user_id : Nat)
    (reason : String) (reference_type : Option String) (reference_id : Option Nat)
    (currentYear : Int) : Except LedgerError (StockMovement × StockLot × Db) :=
  match findLot db.lots lot_id with
  | none => Except.error LedgerError.notFound
  | some lot =>
      if lot.is_active = false then Except.error LedgerError.invalidOperation
      else if lot.is_blocked then Except.error LedgerError.invalidOperation
      else if ¬(lot.qa_status = QAStatus.approved ∨ lot.qa_status = QAStatus.conditional) then
        Except.error LedgerError.invalidOperation
      else if lot.current_weight_kg < weight_kg then
        Except.error (LedgerError.insufficientStock
          (ShortInfo.availableRequested lot.current_weight_kg weight_kg))
      else
        let weight_before := lot.current_weight_kg
        let weight_after := weight_before - weight_kg
        let r1 := get_next_sequence db "movement" "MOV" true currentYear
        let movement : StockMovement :=
          { movement_number := r1.1
            stock_lot_id := lot.id
            movement_type := MovementType.consumption
            weight_change_kg := -weight_kg
            weight_before_kg := weight_before
            weight_after_kg := weight_after
            reference_type := reference_type
            reference_id := reference_id
            from_location_id := lot.location_id
            reason := some reason
            created_by := user_id }
        if weight_after < 0 then Except.error LedgerError.valueError
        else
          let lot1 : StockLot := { lot with current_weight_kg := weight_after }
          let lot2 :=
            if lot1.current_weight_kg ≤ 0 then
              { lot1 with is_active := false, current_weight_kg := 0 }
            else lot1
          if checkLotConstraints lot2 then
            Except.ok (movement, lot2,
              { r1.2 with lots := updateLot r1.2.lots lot2,
                          movements := r1.2.movements ++ [movement] })
          else Except.error LedgerError.integrityError

/-- StockLotService.adjust_stock.  Rejects a zero delta, requires a truthy
approver for a negative delta (Python: if not approved_by), writes the
adjustment movement, sets the new weight (validates hook), pins a zero weight
to inactive, reactivates an inactive lot with positive weight. -/
def adjust_stock (db : Db) (lot_id : Nat) (new_weight_kg : Int) (user_id : Nat)
    (reason : String) (approved_by : Option Nat) (currentYear : Int) :
    Except LedgerError (StockMovement × StockLot × Db) :=
  match findLot db.lots lot_id with
  | none => Except.error LedgerError.notFound
  | some lot =>
      let weight_change := new_weight_kg - lot.current_weight_kg
      if weight_change = 0 then Except.error LedgerError.invalidOperation
      else if weight_change < 0 ∧ truthy approved_by = false then
        Except.error LedgerError.invalidOperation
      else
        let movement_type :=
          if weight_change > 0 then MovementType.adjustment_plus
          else MovementType.adjustment_minus
        let r1 := get_next_sequence db "movement" "MOV" true currentYear
        let movement : StockMovement :=
          { movement_number := r1.1
            stock_lot_id := lot.id
            movement_type := movement_type
            weight_change_kg := weight_change
            weight_before_kg := lot.current_weight_kg
            weight_after_kg := new_weight_kg
            reason := some reason
            created_by := user_id
            approved_by := approved_by }
        if new_weight_kg < 0 then Except.error LedgerError.valueError
        else
          let lot1 : StockLot := { lot with current_weight_kg := new_weight_kg }
          let lot2 :=
            if lot1.current_weight_kg ≤ 0 then
              { lot1 with is_active := false, current_weight_kg := 0 }
            else if lot1.is_active = false ∧ lot1.current_weight_kg > 0 then
              { lot1 with is_active := true }
            else lot1
          if checkLotConstraints lot2 then
            Except.ok (movement, lot2,
              { r1.2 with lots := updateLot r1.2.lots lot2,
                          movements := r1.2.movements ++ [movement] })
          else Except.error LedgerError.integrityError

/-- Python: reason or "Location transfer" (None and the empty string are falsy). -/
def strOr (o : Option String) (dflt : String) : String :=
  match o with
  | none => dflt
  | some s => if s = "" then dflt else s

/-- StockLotService.transfer_location.  Rejects a transfer to the current
location, writes a zero-weight inward-transfer movement and moves the lot. -/
def transfer_location (db : Db) (lot_id : Nat) (to_location_id : Nat) (user_id : Nat)
    (reason : Option String) (currentYear : Int) :
    Except LedgerError (StockMovement × StockLot × Db) :=
  match findLot db.lots lot_id with
  | none => Except.error LedgerError.notFound
  | some lot =>
      if lot.location_id = some to_location_id then Except.error LedgerError.invalidOperation
      else
        let r1 := get_next_sequence db "movement" "MOV" true currentYear
        let movement : StockMovement :=
          { movement_number := r1.1
            stock_lot_id := lot.id
            movement_type := MovementType.inward_transfer
            weight_change_kg := 0
            weight_before_kg := lot.current_weight_kg
            weight_after_kg := lot.current_weight_kg
            from_location_id := lot.location_id
            to_location_id := some to_location_id
            reason := some (strOr reason "Location transfer")
            created_by := user_id }
        let lot2 := { lot with location_id := some to_location_id }
        if checkLotConstraints lot2 then
          Except.ok (movement, lot2,
            { r1.2 with lots := updateLot r1.2.lots lot2,
                        movements := r1.2.movements ++ [movement] })
        else Except.error LedgerError.integrityError

/-- The new lot minted by split_lot for one target weight: a fresh number and
id, the same material, heat, batch, unit, vendor, GRN, rate, QA, location and
received_date as the parent, and gross = net = current = the target weight with
tare 0 and quantity 1. -/
def mkSplitLot (parent : StockLot) (lot_number : String) (lot_id : Nat)
    (weight_kg : Int) : StockLot :=
  { id := lot_id
    lot_number := lot_number
    material_id := parent.material_id
    heat_number := parent.heat_number
    batch_number := parent.batch_number
    gross_weight_kg := weight_kg
    tare_weight_kg := 0
    net_weight_kg := weight_kg
    current_weight_kg := weight_kg
    initial_quantity := 1
    current_quantity := 1
    unit := parent.unit
    vendor_id := parent.vendor_id
    grn_id := parent.grn_id
    purchase_rate := parent.purchase_rate
    qa_status := parent.qa_status
    location_id := parent.location_id
    received_date := parent.received_date
    is_active := true
    is_blocked := false }

/-- The per-weight loop body of StockLotService.split_lot: for each target
weight mint a new lot (same material, heat, batch, QA, location, received_date
as the parent; gross = net = current = weight; flush fires the validates hook
and the CHECK constraints) and write its split inward movement. -/
def splitLoop (parent : StockLot) (user_id : Nat) (currentYear : Int) :
    Db → List Int → List StockLot → Except LedgerError (List StockLot × Db)
  | db, [], acc => Except.ok (acc, db)
  | db, weight_kg :: rest, acc =>
      if weight_kg < 0 then Except.error LedgerError.valueError
      else
        let r1 := get_next_sequence db "lot" "LOT" true currentYear
        let new_lot : StockLot := mkSplitLot parent r1.1 (freshLotId r1.2.lots) weight_kg
        if checkLotConstraints new_lot then
          let r2 := get_next_sequence r1.2 "movement" "MOV" true currentYear
          let movement_in : StockMovement :=
            { movement_number := r2.1
              stock_lot_id := new_lot.id
              movement_type := MovementType.split_mv
              weight_change_kg := weight_kg
              weight_before_kg := 0
              weight_after_kg := weight_kg
              reference_type := some "split_from"
              reference_id := some parent.id
              reason := some ("Split from lot " ++ parent.lot_number)
              created_by := user_id }
          splitLoop parent user_id currentYear
            { r2.2 with lots := r2.2.lots ++ [new_lot],
                        movements := r2.2.movements ++ [movement_in] }
            rest (acc ++ [new_lot])
        else Except.error LedgerError.integrityError

/-- StockLotService.split_lot.  Checks the aggregate against the available
weight, mints the new lots, then writes one outward split movement on the parent
and reduces it (deactivating and pinning to 0 when fully consumed). -/
def split_lot (db : Db) (lot_id : Nat) (split_weights_kg : List Int) (user_id : Nat)
    (reason : String) (currentYear : Int) :
    Except LedgerError (List StockLot × Db) :=
  match findLot db.lots lot_id with
  | none => Except.error LedgerError.notFound
  | some lot =>
      let total_split_weight := split_weights_kg.foldl (· + ·) 0
      if total_split_weight > lot.current_weight_kg then
        Except.error (LedgerError.insufficientStock
          (ShortInfo.splitExceeds total_split_weight lot.current_weight_kg))
      else
        match splitLoop lot user_id currentYear db split_weights_kg [] with
        | Except.error e => Except.error e
        | Except.ok (new_lots, db1) =>
            let r1 := get_next_sequence db1 "movement" "MOV" true currentYear
            let movement_out : StockMovement :=
              { movement_number := r1.1
                stock_lot_id := lot.id
                movement_type := MovementType.split_mv
                weight_change_kg := -total_split_weight
                weight_before_kg := lot.current_weight_kg
                weight_after_kg := lot.current_weight_kg - total_split_weight
                reason := some reason
                created_by := user_id }
            if lot.current_weight_kg - total_split_weight < 0 then
              Except.error LedgerError.valueError
            else
              let lot1 : StockLot :=
                { lot with current_weight_kg := lot.current_weight_kg - total_split_weight }
              let lot2 :=
                if lot1.current_weight_kg ≤ 0 then
                  { lot1 with is_active := false, current_weight_kg := 0 }
                else lot1
              if checkLotConstraints lot2 then
                Except.ok (new_lots,
                  { r1.2 with lots := updateLot r1.2.lots lot2,
                              movements := r1.2.movements ++ [movement_out] })
              else Except.error LedgerError.integrityError

/-- The eligibility filter of InventoryQueryService.get_lots_for_fifo_pick:
material match, active, not blocked, QA approved or conditional, and the
location filter only when the location argument is truthy (Python: if
location_id). -/
def eligibleForFifo (material_id : Nat) (location_id : Option Nat) (l : StockLot) : Bool :=
  l.material_id == material_id && l.is_active && !l.is_blocked &&
    (l.qa_status == QAStatus.approved || l.qa_status == QAStatus.conditional) &&
    (if truthy location_id then l.location_id == location_id else true)

/-- Insert a lot into a list sorted by received_date ascending. -/
def insertByDate (l : StockLot) : List StockLot → List StockLot
  | [] => [l]
  | x :: xs =>
      if l.received_date ≤ x.received_date then l :: x :: xs
      else x :: insertByDate l xs

/-- order_by(StockLot.received_date.asc()): sort by received_date ascending.
The SQL order on equal dates is unspecified; this deterministic sort agrees with
it whenever the dates are distinct. -/
def sortByDate : List StockLot → List StockLot
  | [] => []
  | x :: xs => insertByDate x (sortByDate xs)

/-- The greedy loop of get_lots_for_fifo_pick: stop once remaining is not
positive, otherwise take min(lot.current_weight_kg, remaining) from each lot in
order.  Returns the picks and the final remaining. -/
def fifoLoop : List StockLot → Int → List (StockLot × Int) → List (StockLot × Int) × Int
  | [], remaining, picks => (picks, remaining)
  | l :: rest, remaining, picks =>
      if remaining ≤ 0 then (picks, remaining)
      else fifoLoop rest (remaining - min l.current_weight_kg remaining)
        (picks ++ [(l, min l.current_weight_kg remaining)])

/-- InventoryQueryService.get_lots_for_fifo_pick.  A pure query: filters the
eligible lots, orders them by received_date ascending, greedily plans picks, and
raises InsufficientStockError naming the shortfall when the pool is exhausted
with a positive remaining.  It returns no database, mutating nothing. -/
def get_lots_for_fifo_pick (db : Db) (material_id : Nat) (required_weight_kg : Int)
    (location_id : Option Nat) : Except LedgerError (List (StockLot × Int)) :=
  let pool := sortByDate (db.lots.filter (eligibleForFifo material_id location_id))
  let r := fifoLoop pool required_weight_kg []
  if r.2 > 0 then Except.error (LedgerError.insufficientStock (ShortInfo.shortBy r.2))
  else Except.ok r.1

/-- The dictionary returned by reconcile_physical_vs_system.  The variance
percentage is a rational here; the source computes it in Decimal (28 significant
digits) and the tolerance booleans on the Decimal value — exact in the cases the
claims evaluate, where no division occurs. -/
structure ReconcileResult where
  lot_number : String
  system_weight_kg : Int
  physical_weight_kg : Int
  variance_kg : Int
  variance_percent : ℚ
  within_tolerance : Bool
  requires_adjustment : Bool
deriving DecidableEq

/-- InventoryQueryService.reconcile_physical_vs_system.  A pure query (no lock,
no write): computes the variance and, only when the system weight is positive,
the percentage — otherwise substituting 0 — and compares it against the fixed
0.5 percent tolerance. -/
def reconcile_physical_vs_system (db : Db) (lot_id : Nat) (physical_weight_kg : Int) :
    Except LedgerError ReconcileResult :=
  match findLot db.lots lot_id with
  | none => Except.error LedgerError.notFound
  | some lot =>
      let physical := physical_weight_kg
      let system := lot.current_weight_kg
      let variance := physical - system
      let variance_pct : ℚ :=
        if system > 0 then (variance : ℚ) / (system : ℚ) * 100 else 0
      Except.ok
        { lot_number := lot.lot_number
          system_weight_kg := system
          physical_weight_kg := physical
          variance_kg := variance
          variance_percent := variance_pct
          within_tolerance := decide (|variance_pct| ≤ (1 : ℚ) / 2)
          requires_adjustment := decide (|variance_pct| > (1 : ℚ) / 2) }

/-- The database as the caller sees it after a consume call: the new state on
success, the rolled-back (unchanged) state on any error. -/
def consumeApply (db : Db) (lot_id : Nat) (weight_kg : Int) (user_id : Nat)
    (reason : String) (reference_type : Option String) (reference_id : Option Nat)
    (currentYear : Int) : Db :=
  match consume_from_lot db lot_id weight_kg user_id reason reference_type reference_id
      currentYear with
  | Except.ok (_, _, db2) => db2
  | Except.error _ => db

/-- The database as the caller sees it after a split call: the new state on
success, the rolled-back (unchanged) state on any error. -/
def splitApply (db : Db) (lot_id : Nat) (split_weights_kg : List Int) (user_id : Nat)
    (reason : String) (currentYear : Int) : Db :=
  match split_lot db lot_id split_weights_kg user_id reason currentYear with
  | Except.ok (_, db2) => db2
  | Except.error _ => db

/-- Decidable form of the lot invariant read off the CHECK constraints, over a
whole database. -/
def wfDb (db : Db) : Bool :=
  db.lots.all checkLotConstraints

/-- Decidable form of the spec invariant that a lot with current_weight 0 is
inactive, over a whole database. -/
def zeroInactiveDb (db : Db) : Bool :=
  db.lots.all (fun l => decide (l.current_weight_kg ≠ 0) || !l.is_active)

/-- Sample lot: 100.000 kg of material 5, approved, received at time 10. -/
def sampleLotA : StockLot :=
  { id := 1, lot_number := "LOT/2023/000007", material_id := 5,
    gross_weight_kg := 100000, net_weight_kg := 100000, current_weight_kg := 100000,
    qa_status := QAStatus.approved, received_date := 10 }

/-- Sample lot: 50.000 kg of material 5, approved, received later at time 20. -/
def sampleLotB : StockLot :=
  { id := 2, lot_number := "LOT/2023/000008", material_id := 5,
    gross_weight_kg := 50000, net_weight_kg := 50000, current_weight_kg := 50000,
    qa_status := QAStatus.approved, received_date := 20 }

/-- Sample lot: inactive (fully consumed) lot of material 5. -/
def sampleLotC : StockLot :=
  { id := 3, lot_number := "LOT/2023/000009", material_id := 5,
    gross_weight_kg := 40000, net_weight_kg := 40000, current_weight_kg := 0,
    qa_status := QAStatus.approved, received_date := 5, is_active := false }

/-- Sample database holding just sampleLotA. -/
def sampleDbA : Db := { lots := [sampleLotA] }

/-- Sample database holding the newer sampleLotB before the older sampleLotA
(insertion order is the reverse of FIFO order). -/
def sampleDbBA : Db := { lots := [sampleLotB, sampleLotA] }

/-- Sample database holding only the inactive sampleLotC. -/
def sampleDbC : Db := { lots := [sampleLotC] }

/-- Sample sequence table: the lot sequence stands at 157 in year 2023. -/
def sampleDbSeq : Db :=
  { seqs := [{ sequence_name := "lot", prefixStr := "LOT", current_number := 157,
               year := some 2023, padding := 6 }] }

/-- Sample GRN line item: 5.000 kg of material 5, QA conditional. -/
def sampleLine : GRNLineItem :=
  { grn_id := 2, material_id := 5, weight_kg := 5000, qa_status := QAStatus.conditional,
    grn_number := "GRN/2023/000004" }

-- ===========================================================================
-- Helper lemmas
-- ===========================================================================

theorem gns_lots (db : Db) (n p : String) (yw : Bool) (cy : Int) :
    (get_next_sequence db n p yw cy).2.lots = db.lots := rfl

theorem gns_movements (db : Db) (n p : String) (yw : Bool) (cy : Int) :
    (get_next_sequence db n p yw cy).2.movements = db.movements := rfl

theorem checkLotConstraints_iff (l : StockLot) :
    checkLotConstraints l = true ↔
      0 ≤ l.current_weight_kg ∧ l.current_weight_kg ≤ l.net_weight_kg ∧
        l.net_weight_kg ≤ l.gross_weight_kg := by
  simp [checkLotConstraints, Bool.and_eq_true, decide_eq_true_eq, and_assoc]

theorem findLot_some_id (lots : List StockLot) (i : Nat) (l : StockLot)
    (h : findLot lots i = some l) : l.id = i := by
  have := List.find?_some h
  simpa using this

theorem findLot_mem (lots : List StockLot) (i : Nat) (l : StockLot)
    (h : findLot lots i = some l) : l ∈ lots :=
  List.mem_of_find?_eq_some h

theorem updateLot_forall (lots : List StockLot) (l2 : StockLot)
    (p : StockLot → Prop) (hall : ∀ l ∈ lots, p l) (h2 : p l2) :
    ∀ l ∈ updateLot lots l2, p l := by
  intro l hl
  rcases List.mem_map.mp hl with ⟨x, hx, hxl⟩
  by_cases hid : (x.id == l2.id) = true
  · simp only [updateLot, hid, if_true] at hxl
    exact hxl ▸ h2
  · simp only [updateLot, hid, if_false] at hxl
    exact hxl ▸ hall x hx

@[simp]
theorem mkSplitLot_current (p : StockLot) (n : String) (i : Nat) (w : Int) :
    (mkSplitLot p n i w).current_weight_kg = w := rfl

@[simp]
theorem mkSplitLot_net (p : StockLot) (n : String) (i : Nat) (w : Int) :
    (mkSplitLot p n i w).net_weight_kg = w := rfl

@[simp]
theorem mkSplitLot_gross (p : StockLot) (n : String) (i : Nat) (w : Int) :
    (mkSplitLot p n i w).gross_weight_kg = w := rfl

theorem checkLotConstraints_mkSplitLot (p : StockLot) (n : String) (i : Nat) (w : Int)
    (hw : 0 ≤ w) : checkLotConstraints (mkSplitLot p n i w) = true := by
  simp [checkLotConstraints, hw]

theorem splitLoop_ok (parent : StockLot) (u : Nat) (cy : Int) (ws : List Int) :
    ∀ (db : Db) (acc : List StockLot),
      (∀ w ∈ ws, 0 ≤ w) →
      ∃ nls db2, splitLoop parent u cy db ws acc = Except.ok (acc ++ nls, db2) ∧
        nls.map (fun l => l.current_weight_kg) = ws ∧
        nls.map (fun l => l.net_weight_kg) = ws ∧
        nls.map (fun l => l.gross_weight_kg) = ws ∧
        (∀ nl ∈ nls, nl.material_id = parent.material_id ∧
          nl.heat_number = parent.heat_number ∧ nl.batch_number = parent.batch_number ∧
          nl.qa_status = parent.qa_status ∧ nl.location_id = parent.location_id ∧
          nl.received_date = parent.received_date ∧ nl.is_active = true ∧
          nl.tare_weight_kg = 0 ∧ nl.net_weight_kg = nl.current_weight_kg ∧
          nl.gross_weight_kg = nl.current_weight_kg) ∧
        db2.lots = db.lots ++ nls := by
  induction ws with
  | nil =>
      intro db acc _
      exact ⟨[], db, by simp [splitLoop], rfl, rfl, rfl, by simp, by simp⟩
  | cons w rest ih =>
      intro db acc h
      have hw : 0 ≤ w := h w (by simp)
      have hrest : ∀ x ∈ rest, 0 ≤ x := fun x hx => h x (by simp [hx])
      have c1 : (w < 0) = False := eq_false (not_lt.mpr hw)
      have c2 := checkLotConstraints_mkSplitLot parent
        (get_next_sequence db "lot" "LOT" true cy).1
        (freshLotId (get_next_sequence db "lot" "LOT" true cy).2.lots) w hw
      obtain ⟨nls, db2, heq, hm1, hm2, hm3, hinh, hlots⟩ :=
        ih ({ (get_next_sequence (get_next_sequence db "lot" "LOT" true cy).2
                "movement" "MOV" true cy).2 with
              lots := (get_next_sequence (get_next_sequence db "lot" "LOT" true cy).2
                "movement" "MOV" true cy).2.lots ++
                  [mkSplitLot parent (get_next_sequence db "lot" "LOT" true cy).1
                    (freshLotId (get_next_sequence db "lot" "LOT" true cy).2.lots) w],
              movements := (get_next_sequence (get_next_sequence db "lot" "LOT" true cy).2
                "movement" "MOV" true cy).2.movements ++
                  [{ movement_number := (get_next_sequence
                        (get_next_sequence db "lot" "LOT" true cy).2
                        "movement" "MOV" true cy).1
                     stock_lot_id := (mkSplitLot parent
                        (get_next_sequence db "lot" "LOT" true cy).1
                        (freshLotId (get_next_sequence db "lot" "LOT" true cy).2.lots)
                        w).id
                     movement_type := MovementType.split_mv
                     weight_change_kg := w
                     weight_before_kg := 0
                     weight_after_kg := w
                     reference_type := some "split_from"
                     reference_id := some parent.id
                     reason := some ("Split from lot " ++ parent.lot_number)
                     created_by := u }] })
          (acc ++ [mkSplitLot parent (get_next_sequence db "lot" "LOT" true cy).1
            (freshLotId (get_next_sequence db "lot" "LOT" true cy).2.lots) w]) hrest
      refine ⟨mkSplitLot parent (get_next_sequence db "lot" "LOT" true cy).1
        (freshLotId (get_next_sequence db "lot" "LOT" true cy).2.lots) w :: nls, db2,
        ?_, ?_, ?_, ?_, ?_, ?_⟩
      · simp only [splitLoop, c1, if_false, ite_false, c2, if_true, ite_true]
        rw [heq]
        simp
      · simpa using hm1
      · simpa using hm2
      · simpa using hm3
      · intro nl hnl
        rcases List.mem_cons.mp hnl with hh | ht
        · subst hh
          exact ⟨rfl, rfl, rfl, rfl, rfl, rfl, rfl, rfl, rfl, rfl⟩
        · exact hinh nl ht
      · rw [hlots]
        simp [gns_lots]

theorem findLot_append_left (lots more : List StockLot) (i : Nat) (l : StockLot)
    (h : findLot lots i = some l) : findLot (lots ++ more) i = some l := by
  induction lots with
  | nil => simp [findLot] at h
  | cons x xs ih =>
      by_cases hx : (x.id == i) = true
      · simp only [findLot, List.find?, hx] at h ⊢
        simpa using h
      · have hxb : (x.id == i) = false := by simpa using hx
        simp only [findLot, List.find?, hxb] at h ⊢
        exact ih h

theorem findLot_updateLot (lots : List StockLot) (i : Nat) (l l2 : StockLot)
    (h : findLot lots i = some l) (hid : l2.id = l.id) :
    findLot (updateLot lots l2) i = some l2 := by
  have hl : l.id = i := findLot_some_id lots i l h
  have hl2 : l2.id = i := hid.trans hl
  induction lots with
  | nil => simp [findLot] at h
  | cons x xs ih =>
      by_cases hx : (x.id == i) = true
      · have hxi : x.id = i := by simpa using hx
        simp only [updateLot, List.map, findLot, List.find?]
        rw [if_pos (show (x.id == l2.id) = true by simp [hxi, hl2])]
        simp [hl2, findLot]
      · have hxb : (x.id == i) = false := by simpa using hx
        simp only [findLot, List.find?, hxb] at h
        have hrec := ih h
        have hxl2 : (x.id == l2.id) = false := by
          simp only [hl2]
          exact hxb
        simp only [updateLot, List.map, findLot, List.find?, hxl2, if_false,
          Bool.false_eq_true, hxb]
        simpa [updateLot, findLot] using hrec

theorem foldl_add_int (ws : List Int) : ∀ a : Int, ws.foldl (· + ·) a = a + ws.sum := by
  induction ws with
  | nil => intro a; simp
  | cons w rest ih =>
      intro a
      simp only [List.foldl_cons, List.sum_cons, ih]
      ring

-- ===========================================================================
-- C1
-- ===========================================================================

/-- C1: for every lot that is active, not blocked, QA approved or conditional,
and every requested weight w with 0 < w and w at most the current weight,
consume_from_lot succeeds; the current weight after equals the current weight
before minus w; a consumption movement is recorded (appended to the movement
table and returned) with weight_change = -w, weight_before the old and
weight_after the new current weight; and when the new current weight is 0 the
lot becomes inactive with current weight exactly 0, never negative. -/
theorem C1_consume_success (db : Db) (lot_id : Nat) (w : Int) (u : Nat) (reason : String)
    (rt : Option String) (ri : Option Nat) (cy : Int) (lot : StockLot)
    (hfind : findLot db.lots lot_id = some lot)
    (hwf : checkLotConstraints lot = true)
    (hact : lot.is_active = true)
    (hblk : lot.is_blocked = false)
    (hqa : lot.qa_status = QAStatus.approved ∨ lot.qa_status = QAStatus.conditional)
    (hpos : 0 < w) (hle : w ≤ lot.current_weight_kg) :
    ∃ m lot2 db2,
      consume_from_lot db lot_id w u reason rt ri cy = Except.ok (m, lot2, db2) ∧
      lot2.current_weight_kg = lot.current_weight_kg - w ∧
      m.movement_type = MovementType.consumption ∧
      m.weight_change_kg = -w ∧
      m.weight_before_kg = lot.current_weight_kg ∧
      m.weight_after_kg = lot.current_weight_kg - w ∧
      db2.movements = db.movements ++ [m] ∧
      (lot.current_weight_kg - w = 0 → lot2.is_active = false) ∧
      0 ≤ lot2.current_weight_kg := by
  rcases (checkLotConstraints_iff lot).mp hwf with ⟨hc0, hcn, hng⟩
  have c1 : (lot.is_active = false) = False := by simp [hact]
  have c2 : (lot.is_blocked = true) = False := by simp [hblk]
  have c3 : (¬(lot.qa_status = QAStatus.approved ∨ lot.qa_status = QAStatus.conditional))
      = False := eq_false (not_not_intro hqa)
  have c4 : (lot.current_weight_kg < w) = False := eq_false (not_lt.mpr hle)
  have c5 : (lot.current_weight_kg - w < 0) = False := eq_false (by omega)
  have hng' : (lot.net_weight_kg ≤ lot.gross_weight_kg) = True := eq_true hng
  by_cases hz : lot.current_weight_kg - w ≤ 0
  · have hz' : (lot.current_weight_kg - w ≤ 0) = True := eq_true hz
    have h0n : (0 ≤ lot.net_weight_kg) = True := eq_true (by omega)
    have h00 : ((0 : Int) ≤ 0) = True := eq_true le_rfl
    simp only [consume_from_lot, hfind, c1, c2, c3, c4, c5, hz', hng', h0n, h00,
      checkLotConstraints, decide_true_eq_true, decide_eq_true_eq, decide_True,
      Bool.and_self, Bool.and_true, Bool.true_and, if_false, if_true, ite_false, ite_true]
    refine ⟨_, _, _, rfl, by simp; omega, rfl, rfl, rfl, rfl, by simp [gns_movements],
      fun _ => rfl, by simp⟩
  · have hz' : (lot.current_weight_kg - w ≤ 0) = False := eq_false hz
    have h1 : (0 ≤ lot.current_weight_kg - w) = True := eq_true (by omega)
    have h2 : (lot.current_weight_kg - w ≤ lot.net_weight_kg) = True := eq_true (by omega)
    simp only [consume_from_lot, hfind, c1, c2, c3, c4, c5, hz', hng', h1, h2,
      checkLotConstraints, decide_true_eq_true, decide_eq_true_eq, decide_True,
      Bool.and_self, Bool.and_true, Bool.true_and, if_false, if_true, ite_false, ite_true]
    refine ⟨_, _, _, rfl, rfl, rfl, rfl, rfl, rfl, by simp [gns_movements],
      fun hcon => absurd hcon (by omega), by simp; omega⟩

/-- C2: consume_from_lot fails with InsufficientStock exactly when the lot is
found and consumable (active, not blocked, QA approved or conditional) and the
requested weight exceeds the current weight; on every failure the database —
lots and movement log — is unchanged (the transaction rolls back, modelled by
consumeApply); and consuming from an inactive lot fails with InvalidOperation
for every requested weight, the activity check coming before the stock check. -/
theorem C2_consume_failure :
    (∀ db lot_id w u reason rt ri cy info,
        consume_from_lot db lot_id w u reason rt ri cy
            = Except.error (LedgerError.insufficientStock info) ↔
          ∃ lot, findLot db.lots lot_id = some lot ∧ lot.is_active = true ∧
            lot.is_blocked = false ∧
            (lot.qa_status = QAStatus.approved ∨ lot.qa_status = QAStatus.conditional) ∧
            lot.current_weight_kg < w ∧
            info = ShortInfo.availableRequested lot.current_weight_kg w)
    ∧ (∀ db lot_id w u reason rt ri cy e,
        consume_from_lot db lot_id w u reason rt ri cy = Except.error e →
        consumeApply db lot_id w u reason rt ri cy = db)
    ∧ (∀ db lot_id w u reason rt ri cy lot,
        findLot db.lots lot_id = some lot → lot.is_active = false →
        consume_from_lot db lot_id w u reason rt ri cy
          = Except.error LedgerError.invalidOperation) := by
  refine ⟨?_, ?_, ?_⟩
  · intro db lot_id w u reason rt ri cy info
    constructor
    · intro h
      rcases hf : findLot db.lots lot_id with _ | lot
      · simp [consume_from_lot, hf] at h
      · simp only [consume_from_lot, hf] at h
        by_cases h1 : lot.is_active = false
        · rw [if_pos h1] at h
          simp at h
        · rw [if_neg h1] at h
          by_cases h2 : lot.is_blocked = true
          · rw [if_pos h2] at h
            simp at h
          · rw [if_neg h2] at h
            by_cases h3 :
                ¬(lot.qa_status = QAStatus.approved ∨ lot.qa_status = QAStatus.conditional)
            · rw [if_pos h3] at h
              simp at h
            · rw [if_neg h3] at h
              by_cases h4 : lot.current_weight_kg < w
              · rw [if_pos h4] at h
                simp only [Except.error.injEq, LedgerError.insufficientStock.injEq] at h
                exact ⟨lot, rfl, by simpa using h1, by simpa using h2, not_not.mp h3, h4,
                  h.symm⟩
              · rw [if_neg h4] at h
                split_ifs at h <;> simp at h
    · rintro ⟨lot, hf, hact, hblk, hqa, hlt, hinfo⟩
      have c1 : (lot.is_active = false) = False := by simp [hact]
      have c2 : (lot.is_blocked = true) = False := by simp [hblk]
      have c3 : (¬(lot.qa_status = QAStatus.approved ∨ lot.qa_status = QAStatus.conditional))
          = False := eq_false (not_not_intro hqa)
      have c4 : (lot.current_weight_kg < w) = True := eq_true hlt
      simp only [consume_from_lot, hf, c1, c2, c3, c4, if_false, if_true, ite_false,
        ite_true, hinfo]
  · intro db lot_id w u reason rt ri cy e h
    simp only [consumeApply, h]
  · intro db lot_id w u reason rt ri cy lot hfind hact
    have c1 : (lot.is_active = false) = True := eq_true hact
    simp only [consume_from_lot, hfind, c1, if_true, ite_true]

/-- C2 witness: requesting 200.000 kg from the 100.000 kg sampleLotA yields
InsufficientStock naming available and requested and leaves the database
unchanged; consuming 1.000 kg from the inactive sampleLotC yields
InvalidOperation. -/
theorem C2_consume_failure_witness :
    consume_from_lot sampleDbA 1 200000 9 "r" none none 2024
        = Except.error (LedgerError.insufficientStock
            (ShortInfo.availableRequested 100000 200000))
      ∧ consumeApply sampleDbA 1 200000 9 "r" none none 2024 = sampleDbA
      ∧ consume_from_lot sampleDbC 3 1000 9 "r" none none 2024
        = Except.error LedgerError.invalidOperation := by
  have h1 := (C2_consume_failure.1 sampleDbA 1 200000 9 "r" none none 2024
    (ShortInfo.availableRequested 100000 200000)).mpr
    ⟨sampleLotA, by decide, by decide, by decide, Or.inl (by decide), by decide, by decide⟩
  exact ⟨h1, C2_consume_failure.2.1 sampleDbA 1 200000 9 "r" none none 2024 _ h1,
    C2_consume_failure.2.2 sampleDbC 3 1000 9 "r" none none 2024 sampleLotC
      (by decide) (by decide)⟩

/-- C1 witness: consuming 30.000 kg from the 100.000 kg sampleLotA. -/
theorem C1_consume_success_witness :
    ∃ m lot2 db2,
      consume_from_lot sampleDbA 1 30000 9 "production" none none 2024 =
        Except.ok (m, lot2, db2) ∧
      lot2.current_weight_kg = sampleLotA.current_weight_kg - 30000 ∧
      m.movement_type = MovementType.consumption ∧
      m.weight_change_kg = -30000 ∧
      m.weight_before_kg = sampleLotA.current_weight_kg ∧
      m.weight_after_kg = sampleLotA.current_weight_kg - 30000 ∧
      db2.movements = sampleDbA.movements ++ [m] ∧
      (sampleLotA.current_weight_kg - 30000 = 0 → lot2.is_active = false) ∧
      0 ≤ lot2.current_weight_kg :=
  C1_consume_success sampleDbA 1 30000 9 "production" none none 2024 sampleLotA
    (by decide) (by decide) (by decide) (by decide) (Or.inl (by decide))
    (by decide) (by decide)

-- ===========================================================================
-- C4
-- ===========================================================================

/-- C4 (amended): for every found lot satisfying the table constraints and every
list of non-negative split weights whose sum is at most the current weight,
split_lot succeeds and conserves weight exactly — the sum of the new lot current
weights plus the parent current weight after equals the parent current weight
before; each new lot carries current = net = gross = its target weight and
inherits the parent material, heat, batch, QA status, location and
received_date; and whenever the sum exceeds the current weight split_lot fails
with InsufficientStock.  The claim as frozen omits the non-negativity of the
weights, without which the success half is false (see the counterexample). -/
theorem C4_split_conservation (db : Db) (lot_id : Nat) (ws : List Int) (u : Nat)
    (reason : String) (cy : Int) (lot : StockLot)
    (hfind : findLot db.lots lot_id = some lot)
    (hwf : checkLotConstraints lot = true) :
    ((∀ w ∈ ws, 0 ≤ w) → ws.foldl (· + ·) 0 ≤ lot.current_weight_kg →
      ∃ nls db2 parent2,
        split_lot db lot_id ws u reason cy = Except.ok (nls, db2) ∧
        findLot db2.lots lot_id = some parent2 ∧
        parent2.current_weight_kg = lot.current_weight_kg - ws.foldl (· + ·) 0 ∧
        (nls.map (fun l => l.current_weight_kg)).sum + parent2.current_weight_kg
          = lot.current_weight_kg ∧
        nls.map (fun l => l.current_weight_kg) = ws ∧
        nls.map (fun l => l.net_weight_kg) = ws ∧
        nls.map (fun l => l.gross_weight_kg) = ws ∧
        (∀ nl ∈ nls, nl.material_id = lot.material_id ∧ nl.heat_number = lot.heat_number ∧
          nl.batch_number = lot.batch_number ∧ nl.qa_status = lot.qa_status ∧
          nl.location_id = lot.location_id ∧ nl.received_date = lot.received_date))
    ∧ (ws.foldl (· + ·) 0 > lot.current_weight_kg →
        split_lot db lot_id ws u reason cy = Except.error
          (LedgerError.insufficientStock
            (ShortInfo.splitExceeds (ws.foldl (· + ·) 0) lot.current_weight_kg))) := by
  rcases (checkLotConstraints_iff lot).mp hwf with ⟨hc0, hcn, hng⟩
  constructor
  · intro hpos hsum
    have hT : ws.foldl (· + ·) 0 = ws.sum := by simpa using foldl_add_int ws 0
    have hT0 : 0 ≤ ws.foldl (· + ·) 0 := by
      rw [hT]
      exact List.sum_nonneg hpos
    have c1 : (ws.foldl (· + ·) 0 > lot.current_weight_kg) = False :=
      eq_false (not_lt.mpr hsum)
    obtain ⟨nls, db2s, heqloop, hm1, hm2, hm3, hinh, hlots⟩ :=
      splitLoop_ok lot u cy ws db [] hpos
    have c5 : (lot.current_weight_kg - ws.foldl (· + ·) 0 < 0) = False :=
      eq_false (by omega)
    have hng' : (lot.net_weight_kg ≤ lot.gross_weight_kg) = True := eq_true hng
    by_cases hz : lot.current_weight_kg - ws.foldl (· + ·) 0 ≤ 0
    · have hz' : (lot.current_weight_kg - ws.foldl (· + ·) 0 ≤ 0) = True := eq_true hz
      have h0n : (0 ≤ lot.net_weight_kg) = True := eq_true (by omega)
      have h00 : ((0 : Int) ≤ 0) = True := eq_true le_rfl
      simp only [split_lot, hfind, c1, c5, hz', hng', h0n, h00, heqloop,
        List.nil_append, checkLotConstraints, decide_eq_true_eq, decide_True,
        Bool.and_self, Bool.and_true, Bool.true_and, if_false, if_true, ite_false,
        ite_true]
      refine ⟨nls, _, { lot with current_weight_kg := 0, is_active := false },
        rfl, ?_, ?_, ?_, hm1, hm2, hm3, ?_⟩
      · rw [gns_lots, hlots]
        exact findLot_updateLot _ _ lot _ (findLot_append_left _ _ _ _ hfind) rfl
      · simp
        omega
      · rw [hm1, ← hT]
        simp
        omega
      · intro nl hnl
        rcases hinh nl hnl with ⟨a1, a2, a3, a4, a5, a6, _⟩
        exact ⟨a1, a2, a3, a4, a5, a6⟩
    · have hz' : (lot.current_weight_kg - ws.foldl (· + ·) 0 ≤ 0) = False := eq_false hz
      have h1 : (0 ≤ lot.current_weight_kg - ws.foldl (· + ·) 0) = True := eq_true (by omega)
      have h2 : (lot.current_weight_kg - ws.foldl (· + ·) 0 ≤ lot.net_weight_kg) = True :=
        eq_true (by omega)
      simp only [split_lot, hfind, c1, c5, hz', hng', h1, h2, heqloop,
        List.nil_append, checkLotConstraints, decide_eq_true_eq, decide_True,
        Bool.and_self, Bool.and_true, Bool.true_and, if_false, if_true, ite_false,
        ite_true]
      refine ⟨nls, _,
        { lot with current_weight_kg :=
            lot.current_weight_kg - List.foldl (· + ·) 0 ws },
        rfl, ?_, ?_, ?_, hm1, hm2, hm3, ?_⟩
      · rw [gns_lots, hlots]
        exact findLot_updateLot _ _ lot _ (findLot_append_left _ _ _ _ hfind) rfl
      · simp
      · rw [hm1, ← hT]
        simp
      · intro nl hnl
        rcases hinh nl hnl with ⟨a1, a2, a3, a4, a5, a6, _⟩
        exact ⟨a1, a2, a3, a4, a5, a6⟩
  · intro hover
    have c1 : (ws.foldl (· + ·) 0 > lot.current_weight_kg) = True := eq_true hover
    simp only [split_lot, hfind, c1, if_true, ite_true]

/-- C4 counterexample: the claim as stated quantifies over every list of split
weights whose sum is at most the current weight; the list [-1.000 kg] has sum
at most 100.000 kg, yet split_lot on sampleLotA fails (with the ValueError of
the negative-weight validates hook), not succeeds. -/
theorem C4_split_counterexample :
    ([(-1000 : Int)].foldl (· + ·) 0 ≤ sampleLotA.current_weight_kg)
      ∧ split_lot sampleDbA 1 [-1000] 7 "cut" 2024 = Except.error LedgerError.valueError := by
  constructor
  · decide
  · rfl

/-- C4 witness: splitting 30.000 kg and 20.000 kg off the 100.000 kg sampleLotA. -/
theorem C4_split_conservation_witness :
    (∃ nls db2 parent2,
        split_lot sampleDbA 1 [30000, 20000] 7 "slit coil" 2024 = Except.ok (nls, db2) ∧
        findLot db2.lots 1 = some parent2 ∧
        parent2.current_weight_kg
          = sampleLotA.current_weight_kg - [(30000 : Int), 20000].foldl (· + ·) 0 ∧
        (nls.map (fun l => l.current_weight_kg)).sum + parent2.current_weight_kg
          = sampleLotA.current_weight_kg ∧
        nls.map (fun l => l.current_weight_kg) = [30000, 20000] ∧
        nls.map (fun l => l.net_weight_kg) = [30000, 20000] ∧
        nls.map (fun l => l.gross_weight_kg) = [30000, 20000] ∧
        (∀ nl ∈ nls, nl.material_id = sampleLotA.material_id ∧
          nl.heat_number = sampleLotA.heat_number ∧
          nl.batch_number = sampleLotA.batch_number ∧
          nl.qa_status = sampleLotA.qa_status ∧
          nl.location_id = sampleLotA.location_id ∧
          nl.received_date = sampleLotA.received_date))
      ∧ split_lot sampleDbA 1 [200000] 7 "too much" 2024 = Except.error
          (LedgerError.insufficientStock (ShortInfo.splitExceeds 200000 100000)) := by
  constructor
  · exact (C4_split_conservation sampleDbA 1 [30000, 20000] 7 "slit coil" 2024 sampleLotA
      (by decide) (by decide)).1 (by decide) (by decide)
  · exact (C4_split_conservation sampleDbA 1 [200000] 7 "too much" 2024 sampleLotA
      (by decide) (by decide)).2 (by decide)

-- ===========================================================================
-- C3
-- ===========================================================================

theorem splitLoop_ok_nonneg (parent : StockLot) (u : Nat) (cy : Int) (ws : List Int) :
    ∀ (db : Db) (acc : List StockLot) (p : List StockLot × Db),
      splitLoop parent u cy db ws acc = Except.ok p → ∀ w ∈ ws, 0 ≤ w := by
  induction ws with
  | nil =>
      intro db acc p _ w hw
      simp at hw
  | cons w0 rest ih =>
      intro db acc p hok w hw
      by_cases hneg : w0 < 0
      · have c1 : (w0 < 0) = True := eq_true hneg
        simp [splitLoop, c1] at hok
      · have c1 : (w0 < 0) = False := eq_false hneg
        have c2 := checkLotConstraints_mkSplitLot parent
          (get_next_sequence db "lot" "LOT" true cy).1
          (freshLotId (get_next_sequence db "lot" "LOT" true cy).2.lots) w0 (by omega)
        rcases List.mem_cons.mp hw with hh | ht
        · omega
        · simp only [splitLoop, c1, c2, if_false, ite_false, if_true, ite_true] at hok
          exact ih _ _ p hok w ht

theorem create_preserves (db : Db) (line : GRNLineItem) (loc : Option Nat) (u : Nat)
    (cy now : Int) (lot : StockLot) (db2 : Db)
    (hwf : ∀ l ∈ db.lots, checkLotConstraints l = true)
    (hzi : ∀ l ∈ db.lots, l.current_weight_kg = 0 → l.is_active = false)
    (hok : create_lot_from_grn db line loc u cy now = Except.ok (lot, db2)) :
    (∀ l ∈ db2.lots, checkLotConstraints l = true) ∧
    (0 < line.weight_kg →
      ∀ l ∈ db2.lots, l.current_weight_kg = 0 → l.is_active = false) := by
  by_cases hneg : line.weight_kg < 0
  · have c1 : (line.weight_kg < 0) = True := eq_true hneg
    simp [create_lot_from_grn, c1] at hok
  · have c1 : (line.weight_kg < 0) = False := eq_false hneg
    simp only [create_lot_from_grn, c1, if_false, ite_false] at hok
    split_ifs at hok with hchk
    · simp only [Except.ok.injEq, Prod.mk.injEq] at hok
      obtain ⟨hlot, hdb2⟩ := hok
      subst hdb2
      constructor
      · intro l hl
        simp only [gns_lots] at hl
        rcases List.mem_append.mp hl with hmem | hnew
        · exact hwf l hmem
        · rw [List.mem_singleton.mp hnew]
          exact hchk
      · intro hpos l hl
        simp only [gns_lots] at hl
        rcases List.mem_append.mp hl with hmem | hnew
        · exact hzi l hmem
        · rw [List.mem_singleton.mp hnew]
          intro h0
          simp at h0
          omega

theorem consume_preserves (db : Db) (lot_id : Nat) (w : Int) (u : Nat) (reason : String)
    (rt : Option String) (ri : Option Nat) (cy : Int) (m : StockMovement)
    (lot2 : StockLot) (db2 : Db)
    (hwf : ∀ l ∈ db.lots, checkLotConstraints l = true)
    (hzi : ∀ l ∈ db.lots, l.current_weight_kg = 0 → l.is_active = false)
    (hok : consume_from_lot db lot_id w u reason rt ri cy = Except.ok (m, lot2, db2)) :
    (∀ l ∈ db2.lots, checkLotConstraints l = true) ∧
    (∀ l ∈ db2.lots, l.current_weight_kg = 0 → l.is_active = false) := by
  rcases hf : findLot db.lots lot_id with _ | lot
  · simp [consume_from_lot, hf] at hok
  · simp only [consume_from_lot, hf] at hok
    split_ifs at hok with h1 h2 h3 h4 h5 h6 h7 h8
    all_goals
      first
      | (simp at hok
         done)
      | (simp only [Except.ok.injEq, Prod.mk.injEq] at hok
         obtain ⟨hm, hlot2, hdb2⟩ := hok
         subst hdb2
         constructor
         · intro l hl
           simp only [gns_lots] at hl
           refine updateLot_forall _ _ _ hwf ?_ l hl
           first
           | exact hlot2 ▸ h7
           | exact hlot2 ▸ h8
         · intro l hl
           simp only [gns_lots] at hl
           refine updateLot_forall _ _ _ hzi ?_ l hl
           subst hlot2
           intro h0
           first
           | rfl
           | (exfalso
              simp at h0
              omega))

theorem adjust_preserves (db : Db) (lot_id : Nat) (nw : Int) (u : Nat) (reason : String)
    (ab : Option Nat) (cy : Int) (m : StockMovement) (lot2 : StockLot) (db2 : Db)
    (hwf : ∀ l ∈ db.lots, checkLotConstraints l = true)
    (hzi : ∀ l ∈ db.lots, l.current_weight_kg = 0 → l.is_active = false)
    (hok : adjust_stock db lot_id nw u reason ab cy = Except.ok (m, lot2, db2)) :
    (∀ l ∈ db2.lots, checkLotConstraints l = true) ∧
    (∀ l ∈ db2.lots, l.current_weight_kg = 0 → l.is_active = false) := by
  rcases hf : findLot db.lots lot_id with _ | lot
  · simp [adjust_stock, hf] at hok
  · simp only [adjust_stock, hf] at hok
    split_ifs at hok
    all_goals
      first
      | (simp at hok
         done)
      | (simp only [Except.ok.injEq, Prod.mk.injEq] at hok
         obtain ⟨hm, hlot2, hdb2⟩ := hok
         subst hdb2
         constructor
         · intro l hl
           simp only [gns_lots] at hl
           refine updateLot_forall _ _ _ hwf ?_ l hl
           assumption
         · intro l hl
           simp only [gns_lots] at hl
           refine updateLot_forall _ _ _ hzi ?_ l hl
           subst hlot2
           intro h0
           first
           | rfl
           | (exfalso
              simp at h0
              omega))

theorem transfer_preserves (db : Db) (lot_id : Nat) (to_loc : Nat) (u : Nat)
    (reason : Option String) (cy : Int) (m : StockMovement) (lot2 : StockLot) (db2 : Db)
    (hwf : ∀ l ∈ db.lots, checkLotConstraints l = true)
    (hzi : ∀ l ∈ db.lots, l.current_weight_kg = 0 → l.is_active = false)
    (hok : transfer_location db lot_id to_loc u reason cy = Except.ok (m, lot2, db2)) :
    (∀ l ∈ db2.lots, checkLotConstraints l = true) ∧
    (∀ l ∈ db2.lots, l.current_weight_kg = 0 → l.is_active = false) := by
  rcases hf : findLot db.lots lot_id with _ | lot
  · simp [transfer_location, hf] at hok
  · simp only [transfer_location, hf] at hok
    split_ifs at hok
    all_goals
      first
      | (simp at hok
         done)
      | (simp only [Except.ok.injEq, Prod.mk.injEq] at hok
         obtain ⟨hm, hlot2, hdb2⟩ := hok
         subst hdb2
         constructor
         · intro l hl
           simp only [gns_lots] at hl
           refine updateLot_forall _ _ _ hwf ?_ l hl
           assumption
         · intro l hl
           simp only [gns_lots] at hl
           refine updateLot_forall _ _ _ hzi ?_ l hl
           subst hlot2
           intro h0
           exact hzi lot (findLot_mem _ _ _ hf) (by simpa using h0))

theorem split_preserves (db : Db) (lot_id : Nat) (ws : List Int) (u : Nat)
    (reason : String) (cy : Int) (nls0 : List StockLot) (db2 : Db)
    (hwf : ∀ l ∈ db.lots, checkLotConstraints l = true)
    (hzi : ∀ l ∈ db.lots, l.current_weight_kg = 0 → l.is_active = false)
    (hok : split_lot db lot_id ws u reason cy = Except.ok (nls0, db2)) :
    (∀ l ∈ db2.lots, checkLotConstraints l = true) ∧
    ((∀ w ∈ ws, 0 < w) →
      ∀ l ∈ db2.lots, l.current_weight_kg = 0 → l.is_active = false) := by
  rcases hf : findLot db.lots lot_id with _ | lot
  · simp [split_lot, hf] at hok
  · rcases hsl : splitLoop lot u cy db ws [] with e | p
    · simp only [split_lot, hf, hsl] at hok
      split_ifs at hok
    · have hws : ∀ w ∈ ws, 0 ≤ w := splitLoop_ok_nonneg lot u cy ws db [] p hsl
      obtain ⟨nls, db2s, heqloop, hm1, hm2, hm3, hinh, hlots⟩ :=
        splitLoop_ok lot u cy ws db [] hws
      have hmemw : ∀ l ∈ nls, l.current_weight_kg ∈ ws := by
        intro l hl
        rw [← hm1]
        exact List.mem_map_of_mem (fun x => x.current_weight_kg) hl
      have hnlsfact : ∀ l ∈ nls, checkLotConstraints l = true := by
        intro l hl
        have hc0 : 0 ≤ l.current_weight_kg := hws _ (hmemw l hl)
        rcases hinh l hl with ⟨_, _, _, _, _, _, _, _, hnet, hgross⟩
        exact (checkLotConstraints_iff l).mpr ⟨by omega, by omega, by omega⟩
      simp only [split_lot, hf, heqloop, List.nil_append] at hok
      split_ifs at hok
      all_goals
        first
        | (simp at hok
           done)
        | (simp only [Except.ok.injEq, Prod.mk.injEq] at hok
           obtain ⟨hnls, hdb2⟩ := hok
           subst hdb2
           constructor
           · intro l hl
             simp only [gns_lots, hlots] at hl
             refine updateLot_forall _ _ (fun x => checkLotConstraints x = true) ?_ ?_ l hl
             · intro x hx
               rcases List.mem_append.mp hx with hmem | hnew
               · exact hwf x hmem
               · exact hnlsfact x hnew
             · assumption
           · intro hpos l hl
             simp only [gns_lots, hlots] at hl
             refine updateLot_forall _ _
               (fun x => x.current_weight_kg = 0 → x.is_active = false) ?_ ?_ l hl
             · intro x hx
               rcases List.mem_append.mp hx with hmem | hnew
               · exact hzi x hmem
               · intro h0
                 exact absurd h0 (by have := hpos _ (hmemw x hnew); omega)
             · intro h0
               first
               | rfl
               | (exfalso
                  simp at h0
                  omega))

/-- C3 (amended): every successful ledger operation — create_lot_from_grn,
consume_from_lot, adjust_stock, transfer_location, split_lot — unconditionally
preserves the lot invariant 0 ≤ current_weight ≤ net_weight ≤ gross_weight over
the whole database, and, provided every creation weight handed to
create_lot_from_grn and split_lot is strictly positive, it also preserves the
invariant that a lot with current_weight 0 is inactive.  The claim as frozen
asserts the second invariant unconditionally, but createFromInbound and split
accept a zero target weight and then mint an is_active lot with current_weight 0
(see the counterexample). -/
theorem C3_ledger_invariants :
    (∀ db line loc u cy now lot db2,
        (∀ l ∈ db.lots, checkLotConstraints l = true) →
        (∀ l ∈ db.lots, l.current_weight_kg = 0 → l.is_active = false) →
        create_lot_from_grn db line loc u cy now = Except.ok (lot, db2) →
        (∀ l ∈ db2.lots, checkLotConstraints l = true) ∧
        (0 < line.weight_kg →
          ∀ l ∈ db2.lots, l.current_weight_kg = 0 → l.is_active = false))
    ∧ (∀ db lot_id w u reason rt ri cy m lot2 db2,
        (∀ l ∈ db.lots, checkLotConstraints l = true) →
        (∀ l ∈ db.lots, l.current_weight_kg = 0 → l.is_active = false) →
        consume_from_lot db lot_id w u reason rt ri cy = Except.ok (m, lot2, db2) →
        (∀ l ∈ db2.lots, checkLotConstraints l = true) ∧
        (∀ l ∈ db2.lots, l.current_weight_kg = 0 → l.is_active = false))
    ∧ (∀ db lot_id nw u reason ab cy m lot2 db2,
        (∀ l ∈ db.lots, checkLotConstraints l = true) →
        (∀ l ∈ db.lots, l.current_weight_kg = 0 → l.is_active = false) →
        adjust_stock db lot_id nw u reason ab cy = Except.ok (m, lot2, db2) →
        (∀ l ∈ db2.lots, checkLotConstraints l = true) ∧
        (∀ l ∈ db2.lots, l.current_weight_kg = 0 → l.is_active = false))
    ∧ (∀ db lot_id to_loc u reason cy m lot2 db2,
        (∀ l ∈ db.lots, checkLotConstraints l = true) →
        (∀ l ∈ db.lots, l.current_weight_kg = 0 → l.is_active = false) →
        transfer_location db lot_id to_loc u reason cy = Except.ok (m, lot2, db2) →
        (∀ l ∈ db2.lots, checkLotConstraints l = true) ∧
        (∀ l ∈ db2.lots, l.current_weight_kg = 0 → l.is_active = false))
    ∧ (∀ db lot_id ws u reason cy nls db2,
        (∀ l ∈ db.lots, checkLotConstraints l = true) →
        (∀ l ∈ db.lots, l.current_weight_kg = 0 → l.is_active = false) →
        split_lot db lot_id ws u reason cy = Except.ok (nls, db2) →
        (∀ l ∈ db2.lots, checkLotConstraints l = true) ∧
        ((∀ w ∈ ws, 0 < w) →
          ∀ l ∈ db2.lots, l.current_weight_kg = 0 → l.is_active = false)) :=
  ⟨fun db line loc u cy now lot db2 hwf hzi hok =>
      create_preserves db line loc u cy now lot db2 hwf hzi hok,
   fun db lot_id w u reason rt ri cy m lot2 db2 hwf hzi hok =>
      consume_preserves db lot_id w u reason rt ri cy m lot2 db2 hwf hzi hok,
   fun db lot_id nw u reason ab cy m lot2 db2 hwf hzi hok =>
      adjust_preserves db lot_id nw u reason ab cy m lot2 db2 hwf hzi hok,
   fun db lot_id to_loc u reason cy m lot2 db2 hwf hzi hok =>
      transfer_preserves db lot_id to_loc u reason cy m lot2 db2 hwf hzi hok,
   fun db lot_id ws u reason cy nls db2 hwf hzi hok =>
      split_preserves db lot_id ws u reason cy nls db2 hwf hzi hok⟩

/-- C3 counterexample: sampleDbA satisfies both invariants, yet split_lot with
the single target weight 0 succeeds (the database changes, which only a
successful transaction does) and the resulting database contains a lot with
current_weight 0 that is still active — refuting the unconditional zero-implies-
inactive half of the claim as frozen. -/
theorem C3_ledger_invariants_counterexample :
    wfDb sampleDbA = true ∧ zeroInactiveDb sampleDbA = true ∧
    splitApply sampleDbA 1 [0] 7 "zero split" 2024 ≠ sampleDbA ∧
    zeroInactiveDb (splitApply sampleDbA 1 [0] 7 "zero split" 2024) = false := by
  exact ⟨by decide, by decide, by decide, by decide⟩

/-- C3 witness: the consume clause applied to consuming 30.000 kg from
sampleLotA in sampleDbA. -/
theorem C3_ledger_invariants_witness :
    ∃ m lot2 db2,
      consume_from_lot sampleDbA 1 30000 9 "use" none none 2024
        = Except.ok (m, lot2, db2) ∧
      (∀ l ∈ db2.lots, checkLotConstraints l = true) ∧
      (∀ l ∈ db2.lots, l.current_weight_kg = 0 → l.is_active = false) := by
  have hsome : (consume_from_lot sampleDbA 1 30000 9 "use" none none 2024).toOption.isSome
      = true := by rfl
  rcases hv : consume_from_lot sampleDbA 1 30000 9 "use" none none 2024
    with e | ⟨m, lot2, db2⟩
  · rw [hv] at hsome
    simp [Except.toOption] at hsome
  · have hres := C3_ledger_invariants.2.1 sampleDbA 1 30000 9 "use" none none 2024
      m lot2 db2 (by decide) (by decide) hv
    exact ⟨m, lot2, db2, rfl, hres.1, hres.2⟩

-- ===========================================================================
-- C5
-- ===========================================================================

theorem fifoLoop_nonpos (pool : List StockLot) (r : Int) (acc : List (StockLot × Int))
    (hr : r ≤ 0) : fifoLoop pool r acc = (acc, r) := by
  cases pool with
  | nil => rfl
  | cons l rest => simp only [fifoLoop, if_pos hr]

theorem fifoLoop_shortfall (pool : List StockLot) :
    ∀ (r : Int) (acc : List (StockLot × Int)),
      0 < (fifoLoop pool r acc).2 →
      (fifoLoop pool r acc).2 = r - (pool.map (fun l => l.current_weight_kg)).sum := by
  induction pool with
  | nil => intro r acc _; simp [fifoLoop]
  | cons l rest ih =>
      intro r acc hpos
      by_cases hr : r ≤ 0
      · rw [fifoLoop_nonpos _ _ _ hr] at hpos ⊢
        exact absurd hpos (by omega)
      · simp only [fifoLoop, if_neg hr] at hpos ⊢
        by_cases hc : l.current_weight_kg ≤ r
        · have hmin : min l.current_weight_kg r = l.current_weight_kg := min_eq_left hc
          rw [hmin] at hpos ⊢
          rw [ih _ _ hpos]
          simp
          ring
        · have hmin : min l.current_weight_kg r = r := min_eq_right (by omega)
          rw [hmin] at hpos ⊢
          rw [fifoLoop_nonpos _ _ _ (by omega)] at hpos ⊢
          exact absurd hpos (by omega)

theorem fifoLoop_picks_mem (pool : List StockLot) :
    ∀ (r : Int) (acc : List (StockLot × Int)) (p : StockLot × Int),
      p ∈ (fifoLoop pool r acc).1 → p ∈ acc ∨ p.1 ∈ pool := by
  induction pool with
  | nil => intro r acc p hp; exact Or.inl (by simpa [fifoLoop] using hp)
  | cons l rest ih =>
      intro r acc p hp
      by_cases hr : r ≤ 0
      · rw [fifoLoop_nonpos _ _ _ hr] at hp
        exact Or.inl hp
      · simp only [fifoLoop, if_neg hr] at hp
        rcases ih _ _ p hp with hacc | hrest
        · rcases List.mem_append.mp hacc with h1 | h2
          · exact Or.inl h1
          · right
            rw [List.mem_singleton.mp h2]
            exact List.mem_cons_self _ _
        · exact Or.inr (List.mem_cons_of_mem _ hrest)

theorem insertByDate_mem (x y : StockLot) (l : List StockLot) :
    y ∈ insertByDate x l ↔ y = x ∨ y ∈ l := by
  induction l with
  | nil => simp [insertByDate]
  | cons a as ih =>
      by_cases hd : x.received_date ≤ a.received_date
      · simp [insertByDate, hd]
      · simp only [insertByDate, if_neg hd, List.mem_cons, ih]
        tauto

theorem sortByDate_mem (y : StockLot) (l : List StockLot) :
    y ∈ sortByDate l ↔ y ∈ l := by
  induction l with
  | nil => simp [sortByDate]
  | cons a as ih =>
      simp only [sortByDate, insertByDate_mem, List.mem_cons, ih]

theorem insertByDate_map_sum (x : StockLot) (l : List StockLot) :
    ((insertByDate x l).map (fun l => l.current_weight_kg)).sum
      = x.current_weight_kg + (l.map (fun l => l.current_weight_kg)).sum := by
  induction l with
  | nil => simp [insertByDate]
  | cons a as ih =>
      by_cases hd : x.received_date ≤ a.received_date
      · simp [insertByDate, hd]
      · simp only [insertByDate, if_neg hd, List.map_cons, List.sum_cons, ih]
        ring

theorem sortByDate_map_sum (l : List StockLot) :
    ((sortByDate l).map (fun l => l.current_weight_kg)).sum
      = (l.map (fun l => l.current_weight_kg)).sum := by
  induction l with
  | nil => rfl
  | cons a as ih =>
      simp only [sortByDate, insertByDate_map_sum, List.map_cons, List.sum_cons, ih]

/-- C5: get_lots_for_fifo_pick is a pure query (it returns only the pick plan,
mutating nothing).  First conjunct — the frozen scenario: with an older eligible
lot A and a newer eligible lot B of the material, stored in insertion order
B before A, and a required weight equal to the (positive) current weight of A,
the plan is exactly [(A, A.current_weight_kg)]: ordering is by received_date
ascending, never by insertion order, and the greedy loop stops once remaining
is 0.  Second conjunct: every failure is InsufficientStock naming the shortfall,
which equals the required weight minus the total current weight of the eligible
pool, and is positive.  Third conjunct: every planned pick is an eligible lot of
the database — active, unblocked, QA approved or conditional, of the requested
material.  (The positivity of A.current_weight_kg encodes the lot invariant
that an active lot holds positive weight.) -/
theorem C5_fifo_pick :
    (∀ (A B : StockLot) (m : Nat) (w : Int) (movements : List StockMovement)
        (seqs : List NumberSequence),
        eligibleForFifo m none A = true → eligibleForFifo m none B = true →
        A.received_date < B.received_date → 0 < A.current_weight_kg →
        w = A.current_weight_kg →
        get_lots_for_fifo_pick { lots := [B, A], movements := movements, seqs := seqs }
          m w none = Except.ok [(A, w)])
    ∧ (∀ db m req loc e,
        get_lots_for_fifo_pick db m req loc = Except.error e →
        e = LedgerError.insufficientStock (ShortInfo.shortBy
              (req - ((db.lots.filter (eligibleForFifo m loc)).map
                (fun l => l.current_weight_kg)).sum)) ∧
        0 < req - ((db.lots.filter (eligibleForFifo m loc)).map
                (fun l => l.current_weight_kg)).sum)
    ∧ (∀ db m req loc picks,
        get_lots_for_fifo_pick db m req loc = Except.ok picks →
        ∀ p ∈ picks, p.1 ∈ db.lots ∧ eligibleForFifo m loc p.1 = true) := by
  refine ⟨?_, ?_, ?_⟩
  · intro A B m w movements seqs hA hB hAB hApos hw
    subst hw
    have hd : (B.received_date ≤ A.received_date) = False := eq_false (not_le.mpr hAB)
    have hw0 : (A.current_weight_kg ≤ 0) = False := eq_false (by omega)
    have h00 : ((0 : Int) ≤ 0) = True := eq_true le_rfl
    simp only [get_lots_for_fifo_pick, List.filter_cons, List.filter_nil, hA, hB,
      sortByDate, insertByDate, hd, fifoLoop, hw0, h00, min_self, sub_self,
      List.nil_append, if_true, if_false, ite_true, ite_false, gt_iff_lt, lt_irrefl]
  · intro db m req loc e h
    simp only [get_lots_for_fifo_pick] at h
    by_cases hpos :
        (fifoLoop (sortByDate (db.lots.filter (eligibleForFifo m loc))) req []).2 > 0
    · rw [if_pos hpos] at h
      have heq := fifoLoop_shortfall (sortByDate (db.lots.filter (eligibleForFifo m loc)))
        req [] hpos
      rw [sortByDate_map_sum] at heq
      simp only [Except.error.injEq] at h
      constructor
      · rw [← h, heq]
      · rw [← heq]
        exact hpos
    · rw [if_neg hpos] at h
      simp at h
  · intro db m req loc picks h
    simp only [get_lots_for_fifo_pick] at h
    by_cases hpos :
        (fifoLoop (sortByDate (db.lots.filter (eligibleForFifo m loc))) req []).2 > 0
    · rw [if_pos hpos] at h
      simp at h
    · rw [if_neg hpos] at h
      simp only [Except.ok.injEq] at h
      intro p hp
      rw [← h] at hp
      rcases fifoLoop_picks_mem _ _ _ _ hp with hacc | hpool
      · simp at hacc
      · have := (sortByDate_mem p.1 _).mp hpool
        exact ⟨(List.mem_filter.mp this).1, (List.mem_filter.mp this).2⟩

/-- C5 witness: in sampleDbBA the newer 50.000 kg sampleLotB is stored before
the older 100.000 kg sampleLotA; requiring exactly 100.000 kg of material 5
picks only sampleLotA, and requiring 151.000 kg fails short by exactly 1.000 kg. -/
theorem C5_fifo_pick_witness :
    get_lots_for_fifo_pick sampleDbBA 5 100000 none
        = Except.ok [(sampleLotA, 100000)]
      ∧ (LedgerError.insufficientStock (ShortInfo.shortBy 1000)
          = LedgerError.insufficientStock (ShortInfo.shortBy
              (151000 - ((sampleDbBA.lots.filter (eligibleForFifo 5 none)).map
                (fun l => l.current_weight_kg)).sum)) ∧
        0 < 151000 - ((sampleDbBA.lots.filter (eligibleForFifo 5 none)).map
                (fun l => l.current_weight_kg)).sum) := by
  constructor
  · exact C5_fifo_pick.1 sampleLotA sampleLotB 5 100000 [] [] (by decide) (by decide)
      (by decide) (by decide) (by decide)
  · exact C5_fifo_pick.2.1 sampleDbBA 5 151000 none
      (LedgerError.insufficientStock (ShortInfo.shortBy 1000)) rfl

-- ===========================================================================
-- C6
-- ===========================================================================

/-- C6 (amended): adjust_stock with newWeight equal to the current weight
(delta 0) fails with InvalidOperation; with newWeight below the current weight
and a null approverId it fails with InvalidOperation; with a non-null, nonzero
approverId and 0 ≤ newWeight < current weight it succeeds; and on every success
the lot weight becomes exactly newWeight, the movement is adjustment_plus when
delta > 0 and adjustment_minus when delta < 0, carries created_by and
approved_by, is appended to the movement table, and a previously inactive lot is
reactivated when newWeight > 0.  The claim as frozen promises success for every
newWeight < current with any non-null approver; a negative newWeight instead
raises the validates ValueError, and a zero approver id is falsy in Python, so
both provisos are added (see the counterexample). -/
theorem C6_adjust :
    (∀ db lot_id u reason ab cy lot nw,
        findLot db.lots lot_id = some lot → nw = lot.current_weight_kg →
        adjust_stock db lot_id nw u reason ab cy
          = Except.error LedgerError.invalidOperation)
    ∧ (∀ db lot_id nw u reason cy lot,
        findLot db.lots lot_id = some lot → nw < lot.current_weight_kg →
        adjust_stock db lot_id nw u reason none cy
          = Except.error LedgerError.invalidOperation)
    ∧ (∀ db lot_id nw u reason a cy lot,
        findLot db.lots lot_id = some lot → checkLotConstraints lot = true →
        a ≠ 0 → 0 ≤ nw → nw < lot.current_weight_kg →
        ∃ m lot2 db2,
          adjust_stock db lot_id nw u reason (some a) cy = Except.ok (m, lot2, db2))
    ∧ (∀ db lot_id nw u reason ab cy lot m lot2 db2,
        findLot db.lots lot_id = some lot →
        adjust_stock db lot_id nw u reason ab cy = Except.ok (m, lot2, db2) →
        lot2.current_weight_kg = nw ∧
        (lot.current_weight_kg < nw → m.movement_type = MovementType.adjustment_plus) ∧
        (nw < lot.current_weight_kg → m.movement_type = MovementType.adjustment_minus) ∧
        (lot.is_active = false → 0 < nw → lot2.is_active = true) ∧
        m.created_by = u ∧ m.approved_by = ab ∧
        db2.movements = db.movements ++ [m]) := by
  refine ⟨?_, ?_, ?_, ?_⟩
  · intro db lot_id u reason ab cy lot nw hfind hnw
    have c0 : (nw - lot.current_weight_kg = 0) = True := eq_true (by omega)
    simp only [adjust_stock, hfind, c0, if_true, ite_true]
  · intro db lot_id nw u reason cy lot hfind hlt
    have c0 : (nw - lot.current_weight_kg = 0) = False := eq_false (by omega)
    have c2 : (nw - lot.current_weight_kg < 0 ∧ truthy none = false) = True :=
      eq_true ⟨by omega, rfl⟩
    simp only [adjust_stock, hfind, c0, c2, if_true, ite_true, if_false, ite_false]
  · intro db lot_id nw u reason a cy lot hfind hwf ha h0 hlt
    rcases (checkLotConstraints_iff lot).mp hwf with ⟨hc0, hcn, hng⟩
    have c0 : (nw - lot.current_weight_kg = 0) = False := eq_false (by omega)
    have c2 : (nw - lot.current_weight_kg < 0 ∧ truthy (some a) = false) = False :=
      eq_false (by
        rintro ⟨_, ht⟩
        simp [truthy, ha] at ht)
    have cd : (nw - lot.current_weight_kg > 0) = False := eq_false (by omega)
    have c3 : (nw < 0) = False := eq_false (by omega)
    have hng' : (lot.net_weight_kg ≤ lot.gross_weight_kg) = True := eq_true hng
    by_cases hz : nw ≤ 0
    · have hz' : (nw ≤ 0) = True := eq_true hz
      have h0n : (0 ≤ lot.net_weight_kg) = True := eq_true (by omega)
      have h00 : ((0 : Int) ≤ 0) = True := eq_true le_rfl
      simp only [adjust_stock, hfind, c0, c2, cd, c3, hz', hng', h0n, h00,
        checkLotConstraints, decide_eq_true_eq, decide_True, Bool.and_self,
        Bool.and_true, Bool.true_and, if_false, if_true, ite_false, ite_true]
      exact ⟨_, _, _, rfl⟩
    · have hz' : (nw ≤ 0) = False := eq_false hz
      have h1 : (0 ≤ nw) = True := eq_true h0
      have h2 : (nw ≤ lot.net_weight_kg) = True := eq_true (by omega)
      by_cases hact : lot.is_active = false
      · have hre : (lot.is_active = false ∧ nw > 0) = True := eq_true ⟨hact, by omega⟩
        simp only [adjust_stock, hfind, c0, c2, cd, c3, hz', hre, hng', h1, h2,
          checkLotConstraints, decide_eq_true_eq, decide_True, Bool.and_self,
          Bool.and_true, Bool.true_and, if_false, if_true, ite_false, ite_true]
        exact ⟨_, _, _, rfl⟩
      · have hre : (lot.is_active = false ∧ nw > 0) = False :=
          eq_false (by rintro ⟨hh, _⟩; exact hact hh)
        simp only [adjust_stock, hfind, c0, c2, cd, c3, hz', hre, hng', h1, h2,
          checkLotConstraints, decide_eq_true_eq, decide_True, Bool.and_self,
          Bool.and_true, Bool.true_and, if_false, if_true, ite_false, ite_true]
        exact ⟨_, _, _, rfl⟩
  · intro db lot_id nw u reason ab cy lot m lot2 db2 hfind hok
    simp only [adjust_stock, hfind] at hok
    split_ifs at hok
    all_goals
      first
      | (simp at hok
         done)
      | (simp only [Except.ok.injEq, Prod.mk.injEq] at hok
         obtain ⟨hm, hlot2, hdb2⟩ := hok
         subst hdb2
         subst hlot2
         subst hm
         refine ⟨?_, ?_, ?_, ?_, rfl, rfl, by simp [gns_movements]⟩
         · first
           | rfl
           | (simp
              omega)
         · first
           | (intro _
              rfl)
           | (intro hlt
              exact absurd hlt (by omega))
         · first
           | (intro _
              rfl)
           | (intro hlt
              exact absurd hlt (by omega))
         · first
           | (intro _ _
              rfl)
           | (intro ha hpos
              exfalso
              omega)
           | (intro ha hpos
              exfalso
              tauto))

/-- C6 counterexample: sampleLotA holds 100.000 kg; adjusting it to -1.000 kg —
a newWeight below current, with the non-null approver 3 — does not succeed as
the frozen claim demands: the validates hook on current_weight_kg raises
ValueError. -/
theorem C6_adjust_counterexample :
    ((-1000 : Int) < sampleLotA.current_weight_kg)
      ∧ adjust_stock sampleDbA 1 (-1000) 9 "reweigh loss" (some 3) 2024
          = Except.error LedgerError.valueError := by
  exact ⟨by decide, rfl⟩

/-- C6 witness: on sampleLotA, a no-op adjust to 100.000 kg and an unapproved
negative adjust to 50.000 kg both fail with InvalidOperation, while the same
negative adjust approved by user 3 succeeds. -/
theorem C6_adjust_witness :
    adjust_stock sampleDbA 1 100000 9 "noop" none 2024
        = Except.error LedgerError.invalidOperation
      ∧ adjust_stock sampleDbA 1 50000 9 "loss" none 2024
        = Except.error LedgerError.invalidOperation
      ∧ ∃ m lot2 db2,
          adjust_stock sampleDbA 1 50000 9 "loss" (some 3) 2024
            = Except.ok (m, lot2, db2) := by
  refine ⟨?_, ?_, ?_⟩
  · exact C6_adjust.1 sampleDbA 1 9 "noop" none 2024 sampleLotA 100000 (by decide)
      (by decide)
  · exact C6_adjust.2.1 sampleDbA 1 50000 9 "loss" 2024 sampleLotA (by decide) (by decide)
  · exact C6_adjust.2.2.1 sampleDbA 1 50000 9 "loss" 3 2024 sampleLotA (by decide)
      (by decide) (by decide) (by decide) (by decide)

-- ===========================================================================
-- C7
-- ===========================================================================

theorem findSeq_some_name (seqs : List NumberSequence) (name : String)
    (s : NumberSequence) (h : findSeq seqs name = some s) : s.sequence_name = name := by
  have := List.find?_some h
  simpa using this

theorem findSeq_map_replace (seqs : List NumberSequence) (s2 : NumberSequence)
    (hs : (seqs.find? (fun s => s.sequence_name == s2.sequence_name)).isSome = true) :
    findSeq (seqs.map (fun s => if s.sequence_name == s2.sequence_name then s2 else s))
      s2.sequence_name = some s2 := by
  induction seqs with
  | nil => simp at hs
  | cons x xs ih =>
      by_cases hx : (x.sequence_name == s2.sequence_name) = true
      · simp only [List.map, findSeq, List.find?, hx, if_true, ite_true]
        simp [List.find?]
      · have hxb : (x.sequence_name == s2.sequence_name) = false := by simpa using hx
        simp only [List.find?, hxb] at hs
        simp only [List.map, findSeq, List.find?, hxb, if_false, ite_false,
          Bool.false_eq_true]
        exact ih hs

theorem findSeq_append_new (seqs : List NumberSequence) (s2 : NumberSequence)
    (hs : seqs.find? (fun s => s.sequence_name == s2.sequence_name) = none) :
    findSeq (seqs ++ [s2]) s2.sequence_name = some s2 := by
  induction seqs with
  | nil => simp [findSeq, List.find?]
  | cons x xs ih =>
      by_cases hx : (x.sequence_name == s2.sequence_name) = true
      · simp only [List.find?, hx] at hs
        exact Option.noConfusion hs
      · have hxb : (x.sequence_name == s2.sequence_name) = false := by simpa using hx
        simp only [List.find?, hxb] at hs
        simp only [List.cons_append, findSeq, List.find?, hxb, Bool.false_eq_true]
        exact ih hs

theorem findSeq_storeSeq (seqs : List NumberSequence) (s2 : NumberSequence) :
    findSeq (storeSeq seqs s2) s2.sequence_name = some s2 := by
  unfold storeSeq
  by_cases hs : (seqs.find? (fun s => s.sequence_name == s2.sequence_name)).isSome = true
  · rw [if_pos hs]
    exact findSeq_map_replace seqs s2 hs
  · rw [if_neg hs]
    exact findSeq_append_new seqs s2 (Option.not_isSome_iff_eq_none.mp hs)

/-- C7: for a year-wise sequence, get_next_sequence returns the string
prefix/currentYear/counter zero-padded to the stored padding (the stored prefix
when non-empty, else the argument; padding defaults to 6 on creation).  When
the stored year equals the current year the persisted counter is incremented by
exactly 1; when it differs, the counter is reset to 0 and the year updated
before incrementing, so the persisted counter becomes 1 and the returned number
is the padded 1 — PREFIX/YYYY/000001 under the default padding — regardless of
the previous year count; a sequence created from scratch likewise persists
counter 1 with padding 6. -/
theorem C7_sequence :
    (∀ db name px cy seq,
        findSeq db.seqs name = some seq → seq.year = some cy →
        (get_next_sequence db name px true cy).1
            = (if seq.prefixStr = "" then px else seq.prefixStr) ++ "/" ++ toString cy
              ++ "/" ++ zfill (toString (seq.current_number + 1)) seq.padding ∧
        findSeq (get_next_sequence db name px true cy).2.seqs name
            = some { seq with current_number := seq.current_number + 1 })
    ∧ (∀ db name px cy seq,
        findSeq db.seqs name = some seq → seq.year ≠ some cy →
        (get_next_sequence db name px true cy).1
            = (if seq.prefixStr = "" then px else seq.prefixStr) ++ "/" ++ toString cy
              ++ "/" ++ zfill (toString 1) seq.padding ∧
        findSeq (get_next_sequence db name px true cy).2.seqs name
            = some { seq with current_number := 1, year := some cy })
    ∧ (∀ db name px cy,
        findSeq db.seqs name = none →
        (get_next_sequence db name px true cy).1
            = px ++ "/" ++ toString cy ++ "/" ++ zfill (toString 1) 6 ∧
        findSeq (get_next_sequence db name px true cy).2.seqs name
            = some { sequence_name := name, prefixStr := px, current_number := 1,
                     year := some cy, padding := 6 }) := by
  refine ⟨?_, ?_, ?_⟩
  · intro db name px cy seq hfind hyr
    have hname : seq.sequence_name = name := findSeq_some_name db.seqs name seq hfind
    subst hname
    have hc : (seq.year ≠ some cy) = False := by simp [hyr]
    constructor
    · simp only [get_next_sequence, hfind, hc, if_true, ite_true, if_false, ite_false,
        and_false, true_and]
    · simp only [get_next_sequence, hfind, hc, if_true, ite_true, if_false, ite_false,
        and_false, true_and]
      exact findSeq_storeSeq db.seqs _
  · intro db name px cy seq hfind hyr
    have hname : seq.sequence_name = name := findSeq_some_name db.seqs name seq hfind
    subst hname
    have hc : (seq.year ≠ some cy) = True := eq_true hyr
    constructor
    · simp only [get_next_sequence, hfind, hc, if_true, ite_true, and_true, true_and,
        Nat.zero_add]
    · simp only [get_next_sequence, hfind, hc, if_true, ite_true, and_true, true_and,
        Nat.zero_add]
      exact findSeq_storeSeq db.seqs _
  · intro db name px cy hfind
    have hcc : (some cy ≠ some cy) = False := by simp
    constructor
    · simp only [get_next_sequence, hfind, hcc, and_false, if_false, ite_false,
        if_true, ite_true, ite_self, Nat.zero_add]
    · simp only [get_next_sequence, hfind, hcc, and_false, if_false, ite_false,
        if_true, ite_true, Nat.zero_add]
      have := findSeq_storeSeq db.seqs
        { sequence_name := name, prefixStr := px, current_number := 1,
          year := some cy, padding := 6 }
      simpa using this

/-- C7 witness: the lot sequence of sampleDbSeq stands at 157 in year 2023;
called in 2024 it returns LOT/2024/000001 and persists counter 1, year 2024. -/
theorem C7_sequence_witness :
    (get_next_sequence sampleDbSeq "lot" "LOT" true 2024).1 = "LOT/2024/000001"
      ∧ findSeq (get_next_sequence sampleDbSeq "lot" "LOT" true 2024).2.seqs "lot"
        = some { sequence_name := "lot", prefixStr := "LOT", current_number := 1,
                 year := some 2024, padding := 6 } := by
  obtain ⟨h1, h2⟩ := C7_sequence.2.1 sampleDbSeq "lot" "LOT" 2024
    { sequence_name := "lot", prefixStr := "LOT", current_number := 157,
      year := some 2023, padding := 6 } (by decide) (by decide)
  constructor
  · rw [h1]
    rfl
  · rw [h2]

-- ===========================================================================
-- C8
-- ===========================================================================

/-- C8 (amended): create_lot_from_grn sets the new lot gross, net and current
weights all equal to the line item weight and its tare weight to 0 (the claim
as frozen says tare also equals the line weight — the code writes
tare_weight_kg = 0, see the counterexample); it copies the QA status from the
line item and appends an inward-purchase movement with weight_before = 0 and
weight_after (and weight_change) equal to the lot net weight. -/
theorem C8_create_from_inbound (db : Db) (line : GRNLineItem) (loc : Option Nat)
    (u : Nat) (cy now : Int) (h0 : 0 ≤ line.weight_kg) :
    ∃ lot db2,
      create_lot_from_grn db line loc u cy now = Except.ok (lot, db2) ∧
      lot.gross_weight_kg = line.weight_kg ∧
      lot.net_weight_kg = line.weight_kg ∧
      lot.current_weight_kg = line.weight_kg ∧
      lot.tare_weight_kg = 0 ∧
      lot.qa_status = line.qa_status ∧
      ∃ m, db2.movements = db.movements ++ [m] ∧
        m.movement_type = MovementType.inward_purchase ∧
        m.weight_before_kg = 0 ∧
        m.weight_after_kg = lot.net_weight_kg ∧
        m.weight_change_kg = lot.net_weight_kg := by
  have c1 : (line.weight_kg < 0) = False := eq_false (by omega)
  have c2 : (0 ≤ line.weight_kg) = True := eq_true h0
  have c3 : (line.weight_kg ≤ line.weight_kg) = True := eq_true le_rfl
  simp only [create_lot_from_grn, c1, c2, c3, checkLotConstraints, decide_eq_true_eq,
    decide_True, Bool.and_self, Bool.and_true, Bool.true_and, if_false, if_true,
    ite_false, ite_true]
  refine ⟨_, _, rfl, rfl, rfl, rfl, rfl, rfl, _, rfl, rfl, rfl, rfl, rfl⟩

/-- C8 counterexample: for the 5.000 kg sampleLine, the created lot has
tare_weight_kg 0, not the line item weight 5.000 kg as the frozen claim states. -/
theorem C8_create_counterexample :
    sampleLine.weight_kg = 5000
      ∧ (create_lot_from_grn sampleDbA sampleLine (some 1) 9 2024 99).toOption.map
          (fun p => p.1.tare_weight_kg) = some 0
      ∧ (0 : Int) ≠ 5000 := by
  exact ⟨rfl, rfl, by decide⟩

/-- C8 witness: creating a lot from the 5.000 kg QA-conditional sampleLine. -/
theorem C8_create_from_inbound_witness :
    ∃ lot db2,
      create_lot_from_grn sampleDbA sampleLine (some 1) 9 2024 99
        = Except.ok (lot, db2) ∧
      lot.gross_weight_kg = sampleLine.weight_kg ∧
      lot.net_weight_kg = sampleLine.weight_kg ∧
      lot.current_weight_kg = sampleLine.weight_kg ∧
      lot.tare_weight_kg = 0 ∧
      lot.qa_status = sampleLine.qa_status ∧
      ∃ m, db2.movements = sampleDbA.movements ++ [m] ∧
        m.movement_type = MovementType.inward_purchase ∧
        m.weight_before_kg = 0 ∧
        m.weight_after_kg = lot.net_weight_kg ∧
        m.weight_change_kg = lot.net_weight_kg :=
  C8_create_from_inbound sampleDbA sampleLine (some 1) 9 2024 99 (by decide)

-- ===========================================================================
-- C9
-- ===========================================================================

/-- C9 (amended): normalize_weight fails with the decimal InvalidInput error
exactly for inputs that do not parse as a number; a parseable negative value is
not rejected — it is normalized and returned as a negative weight (the claim as
frozen says negative values fail with InvalidInput; the function performs no
sign check, see the counterexample). -/
theorem C9_normalize_weight :
    (∀ s u, normalize_weight (RawValue.notNum s) u = Except.error LedgerError.invalidInput)
    ∧ (∀ v u, ∃ r, normalize_weight (RawValue.num v) u = Except.ok r ∧
        (v < 0 → r < 0)) := by
  refine ⟨fun s u => rfl, ?_⟩
  intro v u
  by_cases hu : u = WeightUnit.ton ∨ u = WeightUnit.mt
  · refine ⟨tons_to_kg v, by simp [normalize_weight, hu], ?_⟩
    intro hv
    simp only [tons_to_kg]
    omega
  · exact ⟨v, by simp [normalize_weight, hu], fun hv => hv⟩

/-- C9 counterexample: the negative input -5.000 parses as a number; the frozen
claim says it is rejected with InvalidInput, but normalize_weight returns it as
the negative weight -5.000 kg. -/
theorem C9_normalize_counterexample :
    normalize_weight (RawValue.num (-5000)) WeightUnit.kg = Except.ok (-5000)
      ∧ ((-5000 : Int) < 0) := by
  exact ⟨rfl, by decide⟩

/-- C9 witness: an unparseable input fails with InvalidInput, and the negative
ton input -2.000 normalizes to the negative weight -2000.000 kg. -/
theorem C9_normalize_weight_witness :
    normalize_weight (RawValue.notNum "12kg") WeightUnit.kg
        = Except.error LedgerError.invalidInput
      ∧ ∃ r, normalize_weight (RawValue.num (-2000)) WeightUnit.ton = Except.ok r ∧
          ((-2000 : Int) < 0 → r < 0) :=
  ⟨C9_normalize_weight.1 "12kg" WeightUnit.kg,
   C9_normalize_weight.2 (-2000) WeightUnit.ton⟩

-- ===========================================================================
-- C10
-- ===========================================================================

/-- C10: reconcile_physical_vs_system is a pure query — it returns only the
comparison record, mutating nothing — and its percentage computation is guarded
by system > 0, substituting 0 otherwise, so it never divides by zero: for every
lot whose system weight is 0 and every physical weight it returns
variance_percent = 0, within_tolerance = true (and requires_adjustment =
false), with the raw variance still reported. -/
theorem C10_reconcile_zero_system (db : Db) (lot_id : Nat) (phys : Int)
    (lot : StockLot) (hfind : findLot db.lots lot_id = some lot)
    (h0 : lot.current_weight_kg = 0) :
    ∃ r, reconcile_physical_vs_system db lot_id phys = Except.ok r ∧
      r.variance_percent = 0 ∧
      r.within_tolerance = true ∧
      r.requires_adjustment = false ∧
      r.system_weight_kg = 0 ∧
      r.variance_kg = phys - 0 := by
  have hc : (lot.current_weight_kg > 0) = False := eq_false (by omega)
  simp only [reconcile_physical_vs_system, hfind, hc, if_false, ite_false]
  exact ⟨_, rfl, rfl, by norm_num, by norm_num, by simp [h0], by simp [h0]⟩

/-- C10 witness: reconciling the empty sampleLotC (system weight 0) against a
physical count of 77.777 kg. -/
theorem C10_reconcile_zero_system_witness :
    ∃ r, reconcile_physical_vs_system sampleDbC 3 77777 = Except.ok r ∧
      r.variance_percent = 0 ∧
      r.within_tolerance = true ∧
      r.requires_adjustment = false ∧
      r.system_weight_kg = 0 ∧
      r.variance_kg = 77777 - 0 :=
  C10_reconcile_zero_system sampleDbC 3 77777 sampleLotC (by decide) (by decide)

end KBSteel
